import Mathlib

/-!
# Go_lris_dome: authentication flow

A shallow embedding of the authentication flow of the repository
(`config/config.go`, `utils/jwt.go`, `middleware/auth.go`,
`services/auth_service.go`, `services/user_service.go`,
`controllers/auth_controller.go`) and the properties its specification
states about it.

Conventions of the embedding.

* A Go `string` is a Lean `String`; `[]byte(s)` is its UTF-8 encoding.
* Go `int` is 64 bits wide. A value of type `int` or `time.Duration` is an
  `Int`; arithmetic that can overflow is wrapped with `wrapInt64`.
* Go `uint` values are `Nat`.
* A `time.Time` instant is an `Int`: nanoseconds since the Unix epoch.
  Instants are taken in the range in which Go's `Time` arithmetic does not
  saturate and the JSON number of a `NumericDate` is exact (less than 2^53
  seconds in absolute value).
* `time.Now()` is not a function of the program state. Every call of it in
  the source is one explicit clock reading, passed in by the caller in the
  order in which the source takes the readings.
* A Go function returning `(T, error)` returns `Result T`, which also
  records a run-time panic (nil pointer dereference).
* Error messages of the libraries are abbreviated; no statement depends on
  the text of a message.
-/

namespace GoIris

/-! ## Results of Go calls -/

/-- Outcome of a Go call of type `(T, error)`: a value, a non-nil error
with its message, or a run-time panic. -/
inductive Result (α : Type) where
  | ok (value : α)
  | error (msg : String)
  | panicked
  deriving DecidableEq, Repr

/-- The call returned a non-nil error (it neither succeeded nor panicked). -/
def Result.isError {α : Type} : Result α → Bool
  | .error _ => true
  | _ => false

/-! ## config/config.go -/

/-- The process environment as `os.Getenv` sees it: the value of a variable,
the empty string when the variable is unset. -/
abbrev Env := String → String

/-- Smallest value of a 64-bit Go `int`. -/
def minInt64 : Int := -9223372036854775808

/-- Largest value of a 64-bit Go `int`. -/
def maxInt64 : Int := 9223372036854775807

/-- Two's complement wrap-around of 64-bit signed arithmetic. -/
def wrapInt64 (x : Int) : Int := (x + 9223372036854775808) % 18446744073709551616 - 9223372036854775808

/-- The digit loop of `strconv.Atoi`: every byte has to be a decimal digit. -/
def parseDigits : List Char → Nat → Option Nat
  | [], acc => some acc
  | c :: cs, acc =>
    if c.isDigit then parseDigits cs (acc * 10 + (c.toNat - 48)) else none

/-- Go `strconv.Atoi`: an optional sign followed by at least one decimal
digit, and a value in the range of `int`; `none` stands for a non-nil error
(syntax or range). -/
def Atoi (s : String) : Option Int :=
  let digits : List Char :=
    match s.data with
    | '-' :: rest => rest
    | '+' :: rest => rest
    | cs => cs
  if digits.isEmpty then none
  else
    match parseDigits digits 0 with
    | none => none
    | some n =>
      let v : Int := if s.data.head? = some '-' then -(n : Int) else (n : Int)
      if minInt64 ≤ v ∧ v ≤ maxInt64 then some v else none

structure ServerConfig where
  Port : String
  Mode : String
  ReadTimeout : Int
  WriteTimeout : Int
  deriving DecidableEq, Repr

structure DatabaseConfig where
  Driver : String
  Host : String
  Port : String
  Database : String
  Username : String
  Password : String
  SSL : String
  deriving DecidableEq, Repr

structure JWTConfig where
  Secret : String
  ExpirationTime : Int
  Issuer : String
  deriving DecidableEq, Repr

structure LogConfig where
  Level : String
  Format : String
  Output : String
  deriving DecidableEq, Repr

structure Config where
  Server : ServerConfig
  Database : DatabaseConfig
  JWT : JWTConfig
  Log : LogConfig
  deriving DecidableEq, Repr

/-- Source `getEnv`: the variable, or the default when it is unset or empty. -/
def getEnv (env : Env) (key defaultValue : String) : String :=
  if env key ≠ "" then env key else defaultValue

/-- Source `getEnvAsInt`: the variable read by `strconv.Atoi`, or the default
when it is unset, empty or not an integer. -/
def getEnvAsInt (env : Env) (key : String) (defaultValue : Int) : Int :=
  if env key ≠ "" then
    match Atoi (env key) with
    | some intValue => intValue
    | none => defaultValue
  else defaultValue

/-- Source `loadConfig`. -/
def loadConfig (env : Env) : Config :=
  { Server :=
      { Port := getEnv env "SERVER_PORT" "8080"
        Mode := getEnv env "GIN_MODE" "debug"
        ReadTimeout := getEnvAsInt env "READ_TIMEOUT" 30
        WriteTimeout := getEnvAsInt env "WRITE_TIMEOUT" 30 }
    Database :=
      { Driver := getEnv env "DB_DRIVER" "sqlite"
        Host := getEnv env "DB_HOST" "localhost"
        Port := getEnv env "DB_PORT" "3306"
        Database := getEnv env "DB_NAME" "iris_sample.db"
        Username := getEnv env "DB_USER" ""
        Password := getEnv env "DB_PASSWORD" ""
        SSL := getEnv env "DB_SSL" "disable" }
    JWT :=
      { Secret := getEnv env "JWT_SECRET" "your-secret-key-change-this-in-production"
        ExpirationTime := getEnvAsInt env "JWT_EXPIRATION_TIME" (24 * 60 * 60)
        Issuer := getEnv env "JWT_ISSUER" "iris-sample-project" }
    Log :=
      { Level := getEnv env "LOG_LEVEL" "info"
        Format := getEnv env "LOG_FORMAT" "json"
        Output := getEnv env "LOG_OUTPUT" "stdout" } }

/-- Source `GetConfig`: the cached configuration when there is one, otherwise
the configuration loaded from the environment. The result is returned with
the new value of the package variable `appConfig`. -/
def GetConfig (appConfig : Option Config) (env : Env) : Config × Option Config :=
  match appConfig with
  | some cfg => (cfg, some cfg)
  | none => (loadConfig env, some (loadConfig env))

/-! ## utils/jwt.go: password helpers -/

/-- Source `HashPassword`: the digest and the error value (`none` is `nil`). -/
def HashPassword (password : String) : String × Option String :=
  (password ++ "_hashed", none)

/-- Source `VerifyPassword`. -/
def VerifyPassword (password hashedPassword : String) : Bool :=
  password ++ "_hashed" == hashedPassword

/-! ## Time (Go package `time`) -/

/-- An instant: nanoseconds since the Unix epoch. -/
abbrev Time := Int

/-- Go `time.Second`, in nanoseconds. -/
def Second : Int := 1000000000

/-- Go `time.Hour`, in nanoseconds. -/
def Hour : Int := 3600 * Second

/-- The zero `time.Time` (1 January of year 1, UTC) as an instant. -/
def zeroTime : Time := -62135596800 * Second

/-- Go `time.Duration(n) * time.Second`: a 64-bit product. -/
def secondsDuration (n : Int) : Int := wrapInt64 (n * Second)

/-- Go `Time.Add`. -/
def Add (t : Time) (d : Int) : Time := t + d

/-- Go `Time.Truncate`: round down to a multiple of `d` since the zero time. -/
def Truncate (t : Time) (d : Int) : Time :=
  if d ≤ 0 then t else t - (t - zeroTime) % d

/-- Go `Time.Unix`: whole seconds since the Unix epoch. -/
def Unix (t : Time) : Int := t / Second

/-- Go `t.After(u)`. -/
def After (t u : Time) : Bool := decide (u < t)

/-- Go `t.Before(u)`. -/
def Before (t u : Time) : Bool := decide (t < u)

/-! ## github.com/golang-jwt/jwt/v5, as far as the repository uses it -/

/-- Library variable `jwt.TimePrecision` (its default). -/
def TimePrecision : Int := Second

/-- Library `jwt.NewNumericDate`: the instant truncated to `TimePrecision`. -/
def NewNumericDate (t : Time) : Time := Truncate t TimePrecision

/-- Library `jwt.RegisteredClaims`; a `*NumericDate` is an `Option`. -/
structure RegisteredClaims where
  Issuer : String
  Subject : String
  Audience : List String
  ExpiresAt : Option Time
  NotBefore : Option Time
  IssuedAt : Option Time
  ID : String
  deriving DecidableEq, Repr

/-- Source `JWTClaims` (declared alike in `utils` and in `services`). -/
structure JWTClaims extends RegisteredClaims where
  UserID : Nat
  Username : String
  Role : String
  deriving DecidableEq, Repr

/-- The signing methods the library registers. -/
inductive SigningMethod where
  | HS256 | HS384 | HS512
  | RS256 | RS384 | RS512
  | PS256 | PS384 | PS512
  | ES256 | ES384 | ES512
  | EdDSA
  | None
  deriving DecidableEq, Repr

/-- Library `SigningMethod.Alg`. -/
def SigningMethod.Alg : SigningMethod → String
  | .HS256 => "HS256" | .HS384 => "HS384" | .HS512 => "HS512"
  | .RS256 => "RS256" | .RS384 => "RS384" | .RS512 => "RS512"
  | .PS256 => "PS256" | .PS384 => "PS384" | .PS512 => "PS512"
  | .ES256 => "ES256" | .ES384 => "ES384" | .ES512 => "ES512"
  | .EdDSA => "EdDSA"
  | .None => "none"

/-- Library `jwt.GetSigningMethod`: the method registered under a name. -/
def GetSigningMethod (alg : String) : Option SigningMethod :=
  [SigningMethod.HS256, .HS384, .HS512, .RS256, .RS384, .RS512, .PS256, .PS384, .PS512,
    .ES256, .ES384, .ES512, .EdDSA, .None].find? (fun m => m.Alg == alg)

/-- The type assertion `token.Method.(*jwt.SigningMethodHMAC)` succeeds. -/
def SigningMethod.isHMAC : SigningMethod → Bool
  | .HS256 | .HS384 | .HS512 => true
  | _ => false

/-- A byte string. -/
abbrev Bytes := List UInt8

/-- Go `[]byte(s)`. -/
def goBytes (s : String) : Bytes := s.data.flatMap String.utf8EncodeChar

/-- What the embedding takes from the Go libraries without modelling it:
the three SHA-2 hash functions, and `Token.SigningString`, which serialises
the header and the claims (JSON, then base64url, joined by a dot). -/
structure Primitives where
  sha256 : Bytes → Bytes
  sha384 : Bytes → Bytes
  sha512 : Bytes → Bytes
  signingString : String → JWTClaims → String

/-- Go `crypto/hmac` (RFC 2104) over a hash `h` with the given block size:
a key longer than a block is hashed first, the key is copied into a zeroed
block, and the tag is `h(opad ++ h(ipad ++ msg))`. -/
def hmacSum (h : Bytes → Bytes) (blockSize : Nat) (key msg : Bytes) : Bytes :=
  let key1 := if key.length > blockSize then h key else key
  let block := key1.take blockSize ++ List.replicate (blockSize - key1.length) 0
  let ipad := block.map (fun b => b ^^^ 0x36)
  let opad := block.map (fun b => b ^^^ 0x5c)
  h (opad ++ h (ipad ++ msg))

/-- The tag an HMAC signing method computes; `none` for the other methods. -/
def hmacTag (lib : Primitives) (m : SigningMethod) (key msg : Bytes) : Option Bytes :=
  match m with
  | .HS256 => some (hmacSum lib.sha256 64 key msg)
  | .HS384 => some (hmacSum lib.sha384 128 key msg)
  | .HS512 => some (hmacSum lib.sha512 128 key msg)
  | _ => none

/-- Library `SigningMethod.Sign` for a key of type `[]byte`: the HMAC methods
accept it, every other method rejects the key type. -/
def Sign (lib : Primitives) (m : SigningMethod) (signingString : String) (key : Bytes) :
    Result Bytes :=
  match hmacTag lib m key (goBytes signingString) with
  | some tag => .ok tag
  | none => .error "key is of invalid type"

/-- Library `SigningMethod.Verify` for a key of type `[]byte`: the HMAC
methods compare the signature with the tag of the signing string, every
other method rejects the key type. -/
def Verify (lib : Primitives) (m : SigningMethod) (signingString : String) (sig key : Bytes) :
    Result Unit :=
  match hmacTag lib m key (goBytes signingString) with
  | some tag => if sig = tag then .ok () else .error "signature is invalid"
  | none => .error "key is of invalid type"

/-- A token string, seen through the decoding the library applies to it.
The compact serialisation itself (base64url and JSON) is not modelled: a
string that does not split into three segments, or whose header or claims
segment does not decode, is `malformed`; any other string is given by its
signing input (the first two segments joined by a dot), the `alg` entry of
its header when that is a string, its decoded claims, and its decoded
signature segment (`none` when the third segment is not base64url). Go
strings are Lean strings here, that is, valid UTF-8, which is what the JSON
decoder hands to the callers of the repository. -/
inductive TokenString where
  | malformed
  | compact (signingInput : String) (alg : Option String) (claims : JWTClaims)
      (signature : Option Bytes)
  deriving DecidableEq, Repr

/-- Library `jwt.Token` after parsing. -/
structure Token where
  Method : SigningMethod
  Claims : JWTClaims
  Signature : Bytes
  Valid : Bool
  deriving DecidableEq, Repr

/-- Library `Token.SignedString` for a key of type `[]byte`: the signing
string followed by its signature. The string it returns is given by what the
parser decodes from it. -/
def SignedString (lib : Primitives) (m : SigningMethod) (claims : JWTClaims) (key : Bytes) :
    Result TokenString :=
  let sstr := lib.signingString m.Alg claims
  match Sign lib m sstr key with
  | .ok sig => .ok (.compact sstr (some m.Alg) claims (some sig))
  | .error e => .error e
  | .panicked => .panicked

/-- Library `Parser.ParseUnverified` (v5.3): decode the header and the
claims, look up the signing method and decode the signature segment, which
it stores in the token; a third segment that is not base64url is an error
here already. Returns the token and its signing input. -/
def ParseUnverified (tokenString : TokenString) : Result (Token × String) :=
  match tokenString with
  | .malformed => .error "token is malformed"
  | .compact text alg claims sig =>
    match alg with
    | none => .error "signing method (alg) is unspecified"
    | some name =>
      match GetSigningMethod name with
      | none => .error "signing method (alg) is unavailable"
      | some m =>
        match sig with
        | none => .error "could not base64 decode signature"
        | some s => .ok ({ Method := m, Claims := claims, Signature := s, Valid := false }, text)

/-- Library `Validator.Validate` with the default options, at the reading
`now` of the clock: `exp` and `nbf` are checked when present, `iat` is not. -/
def Validate (now : Time) (claims : JWTClaims) : Result Unit :=
  let expired : Bool :=
    match claims.ExpiresAt with
    | none => false
    | some exp => !Before now exp
  let notYetValid : Bool :=
    match claims.NotBefore with
    | none => false
    | some nbf => Before now nbf
  if expired then .error "token is expired"
  else if notYetValid then .error "token is not valid yet"
  else .ok ()

/-- Library `jwt.ParseWithClaims` with no parser options: parse, ask the key
function for the key, verify the signature, then validate the claims at the
reading `now` of the clock. -/
def ParseWithClaims (lib : Primitives) (keyFunc : Token → Result Bytes) (now : Time)
    (tokenString : TokenString) : Result Token :=
  match ParseUnverified tokenString with
  | .error e => .error e
  | .panicked => .panicked
  | .ok (token, text) =>
    match keyFunc token with
    | .error e => .error ("error while executing keyfunc: " ++ e)
    | .panicked => .panicked
    | .ok key =>
      match Verify lib token.Method text token.Signature key with
      | .error e => .error e
      | .panicked => .panicked
      | .ok _ =>
        match Validate now token.Claims with
        | .error e => .error e
        | .panicked => .panicked
        | .ok _ => .ok { token with Valid := true }

/-! ## utils/jwt.go: tokens -/

/-- The four readings of `time.Now()` that `GenerateJWT` takes, in source
order: for the expiry, for `IssuedAt`, for `NotBefore` and for the token id. -/
structure IssueClock where
  expiry : Time
  issuedAt : Time
  notBefore : Time
  tokenID : Time
  deriving DecidableEq, Repr

/-- The three readings of `time.Now()` during `ValidateJWT`, in source order:
by the library validator, by the expiry check and by the not-before check. -/
structure ValidateClock where
  validator : Time
  expiryCheck : Time
  notBeforeCheck : Time
  deriving DecidableEq, Repr

/-- The claims literal of `GenerateJWT` (source lines 28 to 40), built from
the expiration time computed on line 25. -/
def accessClaims (cfg : Config) (clock : IssueClock) (userID : Nat)
    (username role : String) : JWTClaims :=
  { UserID := userID
    Username := username
    Role := role
    ExpiresAt :=
      some (NewNumericDate (Add clock.expiry (secondsDuration cfg.JWT.ExpirationTime)))
    IssuedAt := some (NewNumericDate clock.issuedAt)
    NotBefore := some (NewNumericDate clock.notBefore)
    Issuer := cfg.JWT.Issuer
    Subject := "user:" ++ toString userID
    ID := toString userID ++ "_" ++ toString (Unix clock.tokenID)
    Audience := [] }

/-- Source `GenerateJWT`: the token string and the expiration time. -/
def GenerateJWT (lib : Primitives) (cfg : Config) (clock : IssueClock) (userID : Nat)
    (username role : String) : Result (TokenString × Time) :=
  let expirationTime := Add clock.expiry (secondsDuration cfg.JWT.ExpirationTime)
  let claims := accessClaims cfg clock userID username role
  match SignedString lib .HS256 claims (goBytes cfg.JWT.Secret) with
  | .ok tokenString => .ok (tokenString, expirationTime)
  | .error e => .error ("生成JWT令牌失败: " ++ e)
  | .panicked => .panicked

/-- The key function `ValidateJWT` hands to the parser: the configured
secret for an HMAC method, an error for every other method. -/
def keyFunc (cfg : Config) (token : Token) : Result Bytes :=
  if token.Method.isHMAC then .ok (goBytes cfg.JWT.Secret)
  else .error "意外的签名方法"

/-- Source `ValidateJWT`. Reading `.Time` through a nil `ExpiresAt` or
`NotBefore` is a nil pointer dereference. -/
def ValidateJWT (lib : Primitives) (cfg : Config) (clock : ValidateClock)
    (tokenString : TokenString) : Result JWTClaims :=
  match ParseWithClaims lib (keyFunc cfg) clock.validator tokenString with
  | .error e => .error ("解析JWT令牌失败: " ++ e)
  | .panicked => .panicked
  | .ok token =>
    if token.Valid then
      match token.Claims.ExpiresAt with
      | none => .panicked
      | some exp =>
        if After clock.expiryCheck exp then .error "令牌已过期"
        else
          match token.Claims.NotBefore with
          | none => .panicked
          | some nbf =>
            if Before clock.notBeforeCheck nbf then .error "令牌尚未生效"
            else .ok token.Claims
    else .error "无效的JWT令牌"

/-- Source `ParseJWTWithoutValidation`. -/
def ParseJWTWithoutValidation (tokenString : TokenString) : Result JWTClaims :=
  match ParseUnverified tokenString with
  | .error e => .error ("解析JWT令牌失败: " ++ e)
  | .panicked => .panicked
  | .ok (token, _) => .ok token.Claims

/-! ## models/user.go and services/auth_service.go -/

/-- Source `models.User`; `LastLogin` and `DeletedAt` may be null. -/
structure User where
  ID : Nat
  Username : String
  Email : String
  Password : String
  FirstName : String
  LastName : String
  Avatar : String
  Role : String
  Status : String
  LastLogin : Option Time
  CreatedAt : Time
  UpdatedAt : Time
  DeletedAt : Option Time
  deriving DecidableEq, Repr

/-- The three readings of `time.Now()` that `GenerateTokenPair` takes for the
refresh token, in source order. -/
structure RefreshClock where
  expiry : Time
  issuedAt : Time
  notBefore : Time
  deriving DecidableEq, Repr

/-- The claims literal of the refresh token in `GenerateTokenPair` (source
lines 32 to 44); it sets no token id. -/
def refreshClaims (cfg : Config) (clock : RefreshClock) (user : User) : JWTClaims :=
  { UserID := user.ID
    Username := user.Username
    Role := user.Role
    ExpiresAt := some (NewNumericDate (Add clock.expiry (7 * 24 * Hour)))
    IssuedAt := some (NewNumericDate clock.issuedAt)
    NotBefore := some (NewNumericDate clock.notBefore)
    Issuer := cfg.JWT.Issuer
    Subject := "user:" ++ toString user.ID
    ID := ""
    Audience := [] }

/-- Source `GenerateTokenPair`: access token, refresh token and the expiry of
the access token. The access token comes from `GenerateJWT` of `utils`. -/
def GenerateTokenPair (lib : Primitives) (cfg : Config) (clock : IssueClock)
    (refreshClock : RefreshClock) (user : User) : Result (TokenString × TokenString × Time) :=
  match GenerateJWT lib cfg clock user.ID user.Username user.Role with
  | .error e => .error ("生成访问令牌失败: " ++ e)
  | .panicked => .panicked
  | .ok (accessToken, expiresAt) =>
    match SignedString lib .HS256 (refreshClaims cfg refreshClock user)
        (goBytes cfg.JWT.Secret) with
    | .error e => .error ("生成刷新令牌失败: " ++ e)
    | .panicked => .panicked
    | .ok refreshTokenString => .ok (accessToken, refreshTokenString, expiresAt)

/-! ## Vocabulary of the statements -/

/-- The claims a token string carries, when it decodes. -/
def TokenString.claims? : TokenString → Option JWTClaims
  | .malformed => none
  | .compact _ _ claims _ => some claims

/-- The invariant of token claims: all three instants are set, and
expires-at > not-before ≥ issued-at. -/
def windowOrdered (c : JWTClaims) : Bool :=
  match c.ExpiresAt, c.NotBefore, c.IssuedAt with
  | some exp, some nbf, some iat => decide (nbf < exp) && decide (iat ≤ nbf)
  | _, _, _ => false

/-- A process environment given by the list of the variables that are set. -/
def envOf (vars : List (String × String)) : Env :=
  fun key => ((vars.find? (fun kv => kv.1 == key)).map (fun kv => kv.2)).getD ""

/-- A clock of `GenerateJWT` whose four readings coincide. -/
def IssueClock.uniform (now : Time) : IssueClock :=
  { expiry := now, issuedAt := now, notBefore := now, tokenID := now }

/-- A clock of `ValidateJWT` whose three readings coincide. -/
def ValidateClock.uniform (now : Time) : ValidateClock :=
  { validator := now, expiryCheck := now, notBeforeCheck := now }

/-- A clock of the refresh token whose three readings coincide. -/
def RefreshClock.uniform (now : Time) : RefreshClock :=
  { expiry := now, issuedAt := now, notBefore := now }

/-- Stand-ins for the library primitives, used where a statement is
evaluated at a concrete input. -/
def samplePrimitives : Primitives :=
  { sha256 := fun b => b.reverse
    sha384 := fun b => b.reverse
    sha512 := fun b => b.reverse
    signingString := fun alg claims => alg ++ "." ++ claims.Subject }

/-! ## The request context (github.com/kataras/iris/v12, as far as the repository uses it)

HTTP header values, and the token strings cut out of them, are byte strings:
the source measures and slices them by byte offsets. What the JWT library
decodes from such a string is given by a parameter `decode`. -/

/-- A value stored in `ctx.Values()`. -/
inductive Value where
  | uint (n : Nat)
  | str (s : String)
  deriving DecidableEq, Repr

/-- Source `models.UserInfo`. -/
structure UserInfo where
  ID : Nat
  Username : String
  Email : String
  FirstName : String
  LastName : String
  Avatar : String
  Role : String
  Status : String
  CreatedAt : Time
  UpdatedAt : Time
  deriving DecidableEq, Repr

/-- A JSON body written by `ctx.JSON`: the numeric code and the message every
body of the repository carries, the token and expiry when the data holds a
token, the user record when the data holds one, and the text of the
validation errors when there is an `errors` entry. -/
structure Body where
  code : Int
  message : String
  token : Option (TokenString × Time)
  user : Option UserInfo
  errors : Option String
  deriving DecidableEq, Repr

/-- The part of `iris.Context` the handlers use: the Authorization header
(empty when absent), the request-scoped values, the bodies written so far
(latest first), the status code last set, and the number of calls of
`ctx.Next()`, each of which runs the downstream handlers once. -/
structure Context where
  Authorization : Bytes
  values : List (String × Value)
  written : List Body
  statusCode : Int
  nextCalls : Nat
  deriving DecidableEq, Repr

/-- How a handler ends: it returns, leaving the context, or it panics. -/
inductive Outcome where
  | returned (ctx : Context)
  | panicked
  deriving DecidableEq, Repr

/-- Library `ctx.JSON`. -/
def Context.JSON (ctx : Context) (body : Body) : Context :=
  { ctx with written := body :: ctx.written }

/-- Library `ctx.StatusCode`. -/
def Context.StatusCode (ctx : Context) (code : Int) : Context :=
  { ctx with statusCode := code }

/-- Library `ctx.Values().Set`. -/
def Context.Set (ctx : Context) (key : String) (value : Value) : Context :=
  { ctx with values := (key, value) :: ctx.values.filter (fun kv => kv.1 != key) }

/-- Library `ctx.Values().Get`. -/
def Context.Get (ctx : Context) (key : String) : Option Value :=
  (ctx.values.find? (fun kv => kv.1 == key)).map (fun kv => kv.2)

/-- Library `ctx.Next`. -/
def Context.Next (ctx : Context) : Context :=
  { ctx with nextCalls := ctx.nextCalls + 1 }

/-- A body made of a code and a message only (`iris.Map` with these two). -/
def plainBody (code : Int) (message : String) : Body :=
  { code := code, message := message, token := none, user := none, errors := none }

/-- The constant `bearerPrefix` of the handlers, as bytes. -/
def bearerPrefix : Bytes := goBytes "Bearer "

/-! ## middleware/auth.go -/

/-- Source `JWTAuthentication` (the handler it returns). -/
def JWTAuthentication (lib : Primitives) (cfg : Config) (decode : Bytes → TokenString)
    (clock : ValidateClock) (ctx : Context) : Outcome :=
  let authHeader := ctx.Authorization
  if authHeader.isEmpty then
    .returned ((ctx.JSON (plainBody 401 "缺少认证令牌")).StatusCode 401)
  else if !( bearerPrefix.isPrefixOf authHeader) then
    .returned ((ctx.JSON (plainBody 401 "认证令牌格式错误")).StatusCode 401)
  else
    let tokenString := authHeader.drop bearerPrefix.length
    match ValidateJWT lib cfg clock (decode tokenString) with
    | .error e =>
      .returned ((ctx.JSON (plainBody 401 ("无效的认证令牌: " ++ e))).StatusCode 401)
    | .panicked => .panicked
    | .ok claims =>
      .returned
        ((((ctx.Set "user_id" (.uint claims.UserID)).Set "username" (.str claims.Username)).Set
          "role" (.str claims.Role)).Next)

/-- Source `RequireRole` (the handler it returns). Source line 65 binds two
results of `ctx.Values().GetString("role")`, the role and whether there is
one, where the `GetString` of iris v12 returns one string. What the call
returns is therefore not fixed by the library: it is the parameter
`getString`, and nothing is assumed about it. -/
def RequireRole (getString : Context → String → String × Bool) (roles : List String)
    (ctx : Context) : Outcome :=
  let (userRole, ok) := getString ctx "role"
  if !ok then
    .returned ((ctx.JSON (plainBody 403 "无法获取用户角色信息")).StatusCode 403)
  else
    let hasPermission := roles.any (fun role => userRole == role)
    if !hasPermission then
      .returned ((ctx.JSON (plainBody 403 "权限不足")).StatusCode 403)
    else .returned ctx.Next

/-- Source `RequireAdmin`. -/
def RequireAdmin (getString : Context → String → String × Bool) (ctx : Context) : Outcome :=
  RequireRole getString ["admin"] ctx

/-- Source `OptionalAuthentication` (the handler it returns). -/
def OptionalAuthentication (lib : Primitives) (cfg : Config) (decode : Bytes → TokenString)
    (clock : ValidateClock) (ctx : Context) : Outcome :=
  let authHeader := ctx.Authorization
  if authHeader.isEmpty then .returned ctx.Next
  else if !( bearerPrefix.isPrefixOf authHeader) then .returned ctx.Next
  else
    let tokenString := authHeader.drop bearerPrefix.length
    match ValidateJWT lib cfg clock (decode tokenString) with
    | .error _ => .returned ctx.Next
    | .panicked => .panicked
    | .ok claims =>
      .returned
        ((((ctx.Set "user_id" (.uint claims.UserID)).Set "username" (.str claims.Username)).Set
          "role" (.str claims.Role)).Next)

/-! ## The credential store (gorm.io/gorm over the table `users`)

The store is the table and a flag telling whether the driver fails; a
failure that comes and goes between two statements is not modelled. -/

/-- The database handle `database.GetDB()` returns. -/
structure DB where
  users : List User
  failing : Bool
  deriving DecidableEq, Repr

/-- The errors of a query: `gorm.ErrRecordNotFound`, or an error of the
driver. -/
inductive QueryError where
  | recordNotFound
  | driver (msg : String)
  deriving DecidableEq, Repr

/-- The row with the least primary key. -/
def leastID : List User → Option User
  | [] => none
  | u :: us =>
    match leastID us with
    | none => some u
    | some v => if u.ID ≤ v.ID then some u else some v

/-- Library `db.Where(cond).First(&user)`: among the rows that are not
soft-deleted and meet the condition, the one with the least primary key. -/
def DB.First (db : DB) (cond : User → Bool) : Except QueryError User :=
  if db.failing then .error (.driver "database is unavailable")
  else
    match leastID (db.users.filter (fun u => u.DeletedAt.isNone && cond u)) with
    | some u => .ok u
    | none => .error .recordNotFound

/-- Source `User.IsActive`. -/
def User.IsActive (u : User) : Bool := u.Status == "active"

/-- Modelled from the spec: the method `IsActive` of `models.UserInfo`, which
the controllers call and the repository does not declare; it is taken to be
the status check that `User.IsActive` makes ("status (enum: active,
inactive)"). -/
def UserInfo.IsActive (u : UserInfo) : Bool := u.Status == "active"

/-- The `models.UserInfo` literal the services build from a user. -/
def User.toUserInfo (user : User) : UserInfo :=
  { ID := user.ID
    Username := user.Username
    Email := user.Email
    FirstName := user.FirstName
    LastName := user.LastName
    Avatar := user.Avatar
    Role := user.Role
    Status := user.Status
    CreatedAt := user.CreatedAt
    UpdatedAt := user.UpdatedAt }

/-! ## services/user_service.go -/

/-- The result of `LoginUser`, with a ghost counter: the number of calls of
`bcrypt.CompareHashAndPassword` made on the way. -/
structure LoginAttempt where
  result : Result User
  comparisons : Nat
  deriving DecidableEq, Repr

/-- Source `LoginUser`. `compare hash password` tells whether
`bcrypt.CompareHashAndPassword(hash, password)` returns nil. -/
def LoginUser (compare : String → String → Bool) (db : DB) (username password : String) :
    LoginAttempt :=
  match db.First (fun u => u.Username == username || u.Email == username) with
  | .error .recordNotFound => { result := .error "用户不存在", comparisons := 0 }
  | .error (.driver e) => { result := .error ("查询用户失败: " ++ e), comparisons := 0 }
  | .ok user =>
    if !user.IsActive then { result := .error "用户账户已被禁用", comparisons := 0 }
    else if !compare user.Password password then
      { result := .error "密码错误", comparisons := 1 }
    else { result := .ok user, comparisons := 1 }

/-- Source `GetUserByID`. -/
def GetUserByID (db : DB) (userID : Nat) : Result UserInfo :=
  match db.First (fun u => u.ID == userID && u.Status == "active") with
  | .error .recordNotFound => .error "用户不存在"
  | .error (.driver e) => .error ("查询用户失败: " ++ e)
  | .ok user => .ok user.toUserInfo

/-- Source `UpdateUserLastLogin`: the error value and the store after the
statement. `now` is the reading of `time.Now()`, `gormNow` the instant gorm
writes to `updated_at`. -/
def UpdateUserLastLogin (db : DB) (now gormNow : Time) (userID : Nat) : Option String × DB :=
  if db.failing then (some "更新最后登录时间失败", db)
  else
    (none,
      { db with
        users := db.users.map (fun u =>
          if u.ID == userID && u.DeletedAt.isNone then
            { u with LastLogin := some now, UpdatedAt := gormNow }
          else u) })

/-! ## utils/jwt.go and services/auth_service.go: refresh and logout -/

/-- Source `RefreshJWT` of `utils`. -/
def RefreshJWT (lib : Primitives) (cfg : Config) (clock : IssueClock)
    (tokenString : TokenString) : Result (TokenString × Time) :=
  match ParseJWTWithoutValidation tokenString with
  | .error e => .error ("解析原始令牌失败: " ++ e)
  | .panicked => .panicked
  | .ok claims =>
    match GenerateJWT lib cfg clock claims.UserID claims.Username claims.Role with
    | .error e => .error ("生成新令牌失败: " ++ e)
    | .panicked => .panicked
    | .ok (newToken, expirationTime) => .ok (newToken, expirationTime)

/-- Source `RefreshAccessToken` of `services`; `now` is the reading of the
clock by the library validator. -/
def RefreshAccessToken (lib : Primitives) (cfg : Config) (now : Time) (clock : IssueClock)
    (db : DB) (refreshTokenString : TokenString) : Result (TokenString × Time) :=
  match ParseWithClaims lib (keyFunc cfg) now refreshTokenString with
  | .error e => .error ("解析刷新令牌失败: " ++ e)
  | .panicked => .panicked
  | .ok refreshToken =>
    if refreshToken.Valid then
      match GetUserByID db refreshToken.Claims.UserID with
      | .error e => .error ("用户不存在或已被禁用: " ++ e)
      | .panicked => .panicked
      | .ok user =>
        match GenerateJWT lib cfg clock user.ID user.Username user.Role with
        | .error e => .error ("生成新令牌失败: " ++ e)
        | .panicked => .panicked
        | .ok (newToken, expiresAt) => .ok (newToken, expiresAt)
    else .error "无效的刷新令牌"

/-- The state of the process that outlives a request: the cached
configuration and the credential store. -/
structure AppState where
  appConfig : Option Config
  db : DB
  deriving DecidableEq, Repr

/-- Source `InvalidateToken`: the error value and the state after the call. -/
def InvalidateToken (state : AppState) (_tokenString : TokenString) :
    Option String × AppState :=
  (none, state)

/-- Source `DestroySession`: the error value and the state after the call. -/
def DestroySession (state : AppState) (tokenString : TokenString) : Option String × AppState :=
  match InvalidateToken state tokenString with
  | (some err, state1) => (some ("销毁会话失败: " ++ err), state1)
  | (none, state1) => (none, state1)

/-! ## controllers/auth_controller.go -/

/-- Source `models.LoginRequest`. -/
structure LoginRequest where
  Username : String
  Password : String
  deriving DecidableEq, Repr

/-- Source `ValidateStruct` at a `LoginRequest`, whose two fields are tagged
`validate:"required"`: the error text, `none` when both are non-empty. -/
def ValidateLoginRequest (req : LoginRequest) : Option String :=
  if req.Username == "" || req.Password == "" then some "字段不能为空" else none

/-- Source `Login`. `body` is what `ctx.ReadJSON` decodes, `none` when it
fails; the result is the outcome and the store after the request. -/
def Login (lib : Primitives) (cfg : Config) (compare : String → String → Bool)
    (clock : IssueClock) (now gormNow : Time) (db : DB) (body : Option LoginRequest)
    (ctx : Context) : Outcome × DB :=
  match body with
  | none => (.returned (ctx.JSON (plainBody 400 "请求数据格式错误")), db)
  | some loginReq =>
    match ValidateLoginRequest loginReq with
    | some errs =>
      (.returned (ctx.JSON
        { code := 400, message := "输入数据验证失败", token := none, user := none,
          errors := some errs }), db)
    | none =>
      match (LoginUser compare db loginReq.Username loginReq.Password).result with
      | .error _ => (.returned (ctx.JSON (plainBody 401 "用户名或密码错误")), db)
      | .panicked => (.panicked, db)
      | .ok user =>
        match GenerateJWT lib cfg clock user.ID user.Username user.Role with
        | .error e => (.returned (ctx.JSON (plainBody 500 ("生成令牌失败: " ++ e))), db)
        | .panicked => (.panicked, db)
        | .ok (token, expiresAt) =>
          (.returned (ctx.JSON
            { code := 200, message := "登录成功", token := some (token, expiresAt),
              user := some user.toUserInfo, errors := none }),
            (UpdateUserLastLogin db now gormNow user.ID).2)

/-- Source `RefreshToken`. -/
def RefreshToken (lib : Primitives) (cfg : Config) (decode : Bytes → TokenString)
    (clock : IssueClock) (db : DB) (ctx : Context) : Outcome :=
  let authHeader := ctx.Authorization
  if authHeader.isEmpty then .returned (ctx.JSON (plainBody 401 "缺少认证令牌"))
  else if authHeader.length ≤ bearerPrefix.length then
    .returned (ctx.JSON (plainBody 401 "认证令牌格式错误"))
  else
    let tokenString := authHeader.drop bearerPrefix.length
    match ParseJWTWithoutValidation (decode tokenString) with
    | .error _ => .returned (ctx.JSON (plainBody 401 "无效的认证令牌"))
    | .panicked => .panicked
    | .ok claims =>
      match GetUserByID db claims.UserID with
      | .error _ => .returned (ctx.JSON (plainBody 401 "用户不存在或已被禁用"))
      | .panicked => .panicked
      | .ok user =>
        if !user.IsActive then .returned (ctx.JSON (plainBody 401 "用户账户已被禁用"))
        else
          match GenerateJWT lib cfg clock user.ID user.Username user.Role with
          | .error e => .returned (ctx.JSON (plainBody 500 ("生成新令牌失败: " ++ e)))
          | .panicked => .panicked
          | .ok (newToken, expiresAt) =>
            .returned (ctx.JSON
              { code := 200, message := "令牌刷新成功", token := some (newToken, expiresAt),
                user := none, errors := none })

/-- Source `Logout`: the outcome and the state after the request. -/
def Logout (state : AppState) (ctx : Context) : Outcome × AppState :=
  (.returned (ctx.JSON (plainBody 200 "登出成功")), state)

/-- The configuration a call of `config.GetConfig()` sees in a state. -/
def currentConfig (state : AppState) (env : Env) : Config := (GetConfig state.appConfig env).1

/-- A decoder given by the list of the token strings that decode. -/
def decodeOf (table : List (Bytes × TokenString)) : Bytes → TokenString :=
  fun s => ((table.find? (fun kv => kv.1 == s)).map (fun kv => kv.2)).getD .malformed

/-- A request context before any handler ran, with the given Authorization
header. -/
def Context.request (authorization : Bytes) : Context :=
  { Authorization := authorization, values := [], written := [], statusCode := 200,
    nextCalls := 0 }

/-- An HS256 token string with the given signing input and claims, correctly
signed with `secret`. -/
def signedWith (lib : Primitives) (secret text : String) (claims : JWTClaims) : TokenString :=
  .compact text (some "HS256") claims
    (some (hmacSum lib.sha256 64 (goBytes secret) (goBytes text)))

/-- Claims that name a user and a role and carry no `exp`, `nbf` or `iat`. -/
def claimsWithoutExpiry (userID : Nat) (username role : String) : JWTClaims :=
  { UserID := userID, Username := username, Role := role, ExpiresAt := none,
    IssuedAt := none, NotBefore := none, Issuer := "", Subject := "", ID := "",
    Audience := [] }

/-- A sample record of the table `users`. -/
def sampleUser (id : Nat) (username role status : String) : User :=
  { ID := id, Username := username, Email := username ++ "@example.com",
    Password := "$2a$10$digest", FirstName := "", LastName := "", Avatar := "",
    Role := role, Status := status, LastLogin := none, CreatedAt := 0, UpdatedAt := 0,
    DeletedAt := none }

/-! ## utils/jwt.go: the Authorization header -/

/-- Source `GetJWTFromHeader`, on the bytes of the header. -/
def GetJWTFromHeader (authHeader : Bytes) : Result Bytes :=
  if authHeader.isEmpty then .error "缺少Authorization头"
  else if authHeader.length ≤ bearerPrefix.length then .error "Authorization头格式错误"
  else if authHeader.take bearerPrefix.length != bearerPrefix then
    .error "Authorization头必须以Bearer开头"
  else .ok (authHeader.drop bearerPrefix.length)

/-! ## utils/response.go and models/response.go: pages and sanitising -/

/-- Go integer division, which truncates toward zero; `none` is the run-time
panic of a division by zero. -/
def goDiv (a b : Int) : Option Int :=
  if b = 0 then none else some (wrapInt64 (Int.tdiv a b))

/-- Go integer remainder, with the sign of the dividend; `none` is the
run-time panic of a division by zero. -/
def goMod (a b : Int) : Option Int := if b = 0 then none else some (Int.tmod a b)

/-- The page count as `Pagination`, `NewPageResponse` and `PageResponse` all
compute it: `int(total) / pageSize`, plus one when `int(total) % pageSize` is
positive; `none` when the division panics. -/
def totalPageOf (total pageSize : Int) : Option Int :=
  match goDiv total pageSize, goMod total pageSize with
  | some q, some r => some (if r > 0 then wrapInt64 (q + 1) else q)
  | _, _ => none

/-- Source `utils.Pagination`: offset and page count. -/
def Pagination (page pageSize total : Int) : Option (Int × Int) :=
  let page := if page < 1 then 1 else page
  let pageSize := if pageSize < 1 then 10 else pageSize
  let offset := wrapInt64 (wrapInt64 (page - 1) * pageSize)
  match totalPageOf total pageSize with
  | some totalPages => some (offset, totalPages)
  | none => none

/-- Source `models.PageInfo`. -/
structure PageInfo where
  Current : Int
  PageSize : Int
  Total : Int
  TotalPage : Int
  deriving DecidableEq, Repr

/-- Source `models.PageResponse`, without its `Data`: the order of the list
the store returns is not fixed by the source. -/
structure PageResponse where
  Code : Int
  Message : String
  Page : PageInfo
  deriving DecidableEq, Repr

/-- Source `models.NewPageResponse`; `none` when the division panics. -/
def NewPageResponse (code : Int) (message : String) (current pageSize total : Int) :
    Option PageResponse :=
  match totalPageOf total pageSize with
  | some totalPage =>
    some { Code := code, Message := message,
           Page := { Current := current, PageSize := pageSize, Total := total,
                     TotalPage := totalPage } }
  | none => none

/-- Source `ResponseUtil.PageResponse`: the `page` entry of the body it
writes; `none` when the division panics. -/
def ResponseUtil.PageResponse (page pageSize total : Int) : Option PageInfo :=
  match totalPageOf total pageSize with
  | some totalPage =>
    some { Current := page, PageSize := pageSize, Total := total, TotalPage := totalPage }
  | none => none

/-- Go `strings.ReplaceAll` for a non-empty `old`, on the characters of the
string: the non-overlapping occurrences are replaced from left to right.
`skip` counts the characters of a matched occurrence still to be dropped. -/
def replaceAllFrom (old new : List Char) : Nat → List Char → List Char
  | _, [] => []
  | skip + 1, _ :: cs => replaceAllFrom old new skip cs
  | 0, c :: cs =>
    if old.isPrefixOf (c :: cs) then new ++ replaceAllFrom old new (old.length - 1) cs
    else c :: replaceAllFrom old new 0 cs

/-- Go `strings.ReplaceAll` for a non-empty `old`. -/
def ReplaceAll (s old new : String) : String :=
  String.mk (replaceAllFrom old.data new.data 0 s.data)

/-- Source `SanitizeSQL`. -/
def SanitizeSQL (s : String) : String :=
  let s := ReplaceAll s "'" "''"
  let s := ReplaceAll s "\"" "\\\""
  let s := ReplaceAll s ";" ""
  let s := ReplaceAll s "--" ""
  let s := ReplaceAll s "/*" ""
  let s := ReplaceAll s "*/" ""
  s

/-- Whether `sub` occurs in `s`. -/
def containsSub (s sub : String) : Bool :=
  s.data.tails.any (fun t => sub.data.isPrefixOf t)

/-! ## services/user_service.go: registration, update and listing -/

/-- Source `models.UpdateUserRequest`. -/
structure UpdateUserRequest where
  FirstName : String
  LastName : String
  Avatar : String
  Role : String
  Status : String
  deriving DecidableEq, Repr

/-- Library `db.Save(&user)` for a row that exists: every column of the live
rows with the primary key of `user` is written, `updated_at` with the instant
`gormNow`. -/
def DB.Save (db : DB) (gormNow : Time) (user : User) : Except QueryError User × DB :=
  if db.failing then (.error (.driver "database is unavailable"), db)
  else
    (.ok { user with UpdatedAt := gormNow },
      { db with
        users := db.users.map (fun r =>
          if r.ID == user.ID && r.DeletedAt.isNone then { user with UpdatedAt := gormNow }
          else r) })

/-- Source `UpdateUser` of `services`. -/
def Services.UpdateUser (db : DB) (gormNow : Time) (userID : Nat) (req : UpdateUserRequest) :
    Result UserInfo × DB :=
  match db.First (fun u => u.ID == userID) with
  | .error .recordNotFound => (.error "用户不存在", db)
  | .error (.driver e) => (.error ("查询用户失败: " ++ e), db)
  | .ok user =>
    let user := if req.FirstName != "" then { user with FirstName := req.FirstName } else user
    let user := if req.LastName != "" then { user with LastName := req.LastName } else user
    let user := if req.Avatar != "" then { user with Avatar := req.Avatar } else user
    let user := if req.Role != "" then { user with Role := req.Role } else user
    let user := if req.Status != "" then { user with Status := req.Status } else user
    match db.Save gormNow user with
    | (.error _, db1) => (.error "更新用户失败", db1)
    | (.ok saved, db1) => (.ok saved.toUserInfo, db1)

/-- Source `GetUsers` of `services`, as far as its total goes: the number of
live rows with status "active". The page of rows it also returns is left
out, see `PageResponse`. -/
def Services.GetUsers (db : DB) (_page _pageSize : Int) : Result Int :=
  if db.failing then .error "获取用户总数失败"
  else
    .ok ((db.users.filter (fun u => u.DeletedAt.isNone && u.Status == "active")).length : Int)

/-! ## controllers/user_controller.go and controllers/auth_controller.go -/

/-- Library `ctx.Values().GetUintDefault`, for the values the handlers store:
the unsigned integer under the key, the default when there is none. -/
def Context.GetUintDefault (ctx : Context) (key : String) (fallback : Nat) : Nat :=
  match ctx.Get key with
  | some (.uint n) => n
  | _ => fallback

/-- Source `UpdateProfile`. `body` is what `ctx.ReadJSON` decodes, `none`
when it fails; no validator is registered with the application, so the
`validate` tags of the request are not checked. -/
def Controllers.UpdateProfile (db : DB) (gormNow : Time) (body : Option UpdateUserRequest)
    (ctx : Context) : Outcome × DB :=
  let userID := ctx.GetUintDefault "user_id" 0
  if userID == 0 then (.returned (ctx.JSON (plainBody 401 "无效的用户信息")), db)
  else
    match body with
    | none => (.returned (ctx.JSON (plainBody 400 "请求数据格式错误")), db)
    | some updateData =>
      match Services.UpdateUser db gormNow userID updateData with
      | (.error e, db1) =>
        (.returned (ctx.JSON (plainBody 500 ("更新用户资料失败: " ++ e))), db1)
      | (.panicked, db1) => (.panicked, db1)
      | (.ok user, db1) =>
        (.returned (ctx.JSON
          { code := 200, message := "用户资料更新成功", token := none, user := some user,
            errors := none }), db1)

/-- Source `UpdateUser` of `controllers`. `id` is the path parameter,
`none` when `ctx.Params().GetInt` fails. -/
def Controllers.UpdateUser (db : DB) (gormNow : Time) (id : Option Nat)
    (body : Option UpdateUserRequest) (ctx : Context) : Outcome × DB :=
  match id with
  | none => (.returned (ctx.JSON (plainBody 400 "无效的用户ID")), db)
  | some userID =>
    match body with
    | none => (.returned (ctx.JSON (plainBody 400 "请求数据格式错误")), db)
    | some updateData =>
      match Services.UpdateUser db gormNow userID updateData with
      | (.error e, db1) => (.returned (ctx.JSON (plainBody 500 ("更新用户失败: " ++ e))), db1)
      | (.panicked, db1) => (.panicked, db1)
      | (.ok user, db1) =>
        (.returned (ctx.JSON
          { code := 200, message := "用户更新成功", token := none, user := some user,
            errors := none }), db1)

/-- The value `strconv.Atoi` returns next to its error: 0 after a syntax
error, the nearest bound of `int` after a range error. -/
def atoiValue (s : String) : Int :=
  let digits : List Char :=
    match s.data with
    | '-' :: rest => rest
    | '+' :: rest => rest
    | cs => cs
  if digits.isEmpty then 0
  else
    match parseDigits digits 0 with
    | none => 0
    | some n =>
      let v : Int := if s.data.head? = some '-' then -(n : Int) else (n : Int)
      if v < minInt64 then minInt64 else if maxInt64 < v then maxInt64 else v

/-- Library `ctx.URLParamDefault`: the parameter, or the default when it is
absent or empty. -/
def URLParamDefault (param fallback : String) : String :=
  if param = "" then fallback else param

/-- The page and the page size `GetUsers` of `controllers` works with
(source lines 236 to 244). -/
def pageArguments (pageParam pageSizeParam : String) : Int × Int :=
  let page := atoiValue (URLParamDefault pageParam "1")
  let pageSize := atoiValue (URLParamDefault pageSizeParam "10")
  let page := if page < 1 then 1 else page
  let pageSize := if pageSize < 1 ∨ pageSize > 100 then 10 else pageSize
  (page, pageSize)

/-- Source `GetUsers` of `controllers`, up to the value it hands to
`ctx.JSON`: the page response, or the error of the service; `panicked` when
`NewPageResponse` divides by zero. -/
def Controllers.GetUsersPage (db : DB) (pageParam pageSizeParam : String) :
    Result PageResponse :=
  let (page, pageSize) := pageArguments pageParam pageSizeParam
  match Services.GetUsers db page pageSize with
  | .error e => .error ("获取用户列表失败: " ++ e)
  | .panicked => .panicked
  | .ok total =>
    match NewPageResponse 200 "获取用户列表成功" page pageSize total with
    | some response => .ok response
    | none => .panicked

/-- Source `GetUsers` of `controllers`: the body it writes carries the code
and the message of the page response. -/
def Controllers.GetUsers (db : DB) (pageParam pageSizeParam : String) (ctx : Context) :
    Outcome :=
  match Controllers.GetUsersPage db pageParam pageSizeParam with
  | .error e => .returned (ctx.JSON (plainBody 500 e))
  | .panicked => .panicked
  | .ok response => .returned (ctx.JSON (plainBody response.Code response.Message))

/-- Source `ValidateToken` of `controllers`; the data of the body it writes
on success (the identity of the claims) is left out. -/
def Controllers.ValidateToken (lib : Primitives) (cfg : Config) (decode : Bytes → TokenString)
    (clock : ValidateClock) (db : DB) (ctx : Context) : Outcome :=
  let authHeader := ctx.Authorization
  if authHeader.isEmpty then .returned (ctx.JSON (plainBody 401 "缺少认证令牌"))
  else if authHeader.length ≤ bearerPrefix.length then
    .returned (ctx.JSON (plainBody 401 "认证令牌格式错误"))
  else
    let tokenString := authHeader.drop bearerPrefix.length
    match ValidateJWT lib cfg clock (decode tokenString) with
    | .error e => .returned (ctx.JSON (plainBody 401 ("令牌验证失败: " ++ e)))
    | .panicked => .panicked
    | .ok claims =>
      match GetUserByID db claims.UserID with
      | .error _ => .returned (ctx.JSON (plainBody 401 "用户不存在或已被禁用"))
      | .panicked => .panicked
      | .ok user =>
        if !user.IsActive then .returned (ctx.JSON (plainBody 401 "用户不存在或已被禁用"))
        else .returned (ctx.JSON (plainBody 200 "令牌验证成功"))

/-! ## main.go: the route of the user list -/

/-- Source `CORS` (the handler it returns), for a request of the given
method; the response headers it sets are not part of `Context`. -/
def CORS (method : String) (ctx : Context) : Outcome :=
  if method == "OPTIONS" then .returned (ctx.StatusCode 204) else .returned ctx.Next

/-- Library: a chain of handlers. A handler runs, and the handlers after it
run when it called `ctx.Next()`; every handler of the repository calls it
last, if at all. -/
def runChain : List (Context → Outcome) → Context → Outcome
  | [], ctx => .returned ctx
  | h :: rest, ctx =>
    match h ctx with
    | .panicked => .panicked
    | .returned ctx1 =>
      if ctx.nextCalls < ctx1.nextCalls then runChain rest ctx1 else .returned ctx1

/-- The handlers `setupRoutes` registers for GET /api/users: `CORS` of the
party `/api`, `JWTAuthentication` of the party `/users`, then `GetUsers`.
The global `recover` and `logger` of iris, which only pass the request on,
are left out. -/
def usersRoute (lib : Primitives) (cfg : Config) (decode : Bytes → TokenString)
    (clock : ValidateClock) (db : DB) (pageParam pageSizeParam : String) :
    List (Context → Outcome) :=
  [CORS "GET", JWTAuthentication lib cfg decode clock,
    Controllers.GetUsers db pageParam pageSizeParam]

/-! ## Invariants of the credential store -/

/-- Every row has a role of {user, admin} and a status of {active,
inactive}. -/
def rolesValid (db : DB) : Bool :=
  db.users.all (fun u =>
    (u.Role == "user" || u.Role == "admin") && (u.Status == "active" || u.Status == "inactive"))

/-- A sample store: the administrator alice (id 1) and the user bob (id 2),
both active. -/
def sampleStore : DB :=
  { users := [sampleUser 1 "alice" "admin" "active", sampleUser 2 "bob" "user" "active"],
    failing := false }

/-- The context `JWTAuthentication` hands to the next handler for the given
identity. -/
def Context.authenticated (userID : Nat) (username role : String) : Context :=
  ((((Context.request []).Set "user_id" (.uint userID)).Set "username" (.str username)).Set
    "role" (.str role)).Next

/-- A sample access token: HS256, correctly signed with the default secret,
issued at second 1000 to bob (id 2) with the given role, with the default
lifetime. -/
def sampleToken (lib : Primitives) (role : String) : TokenString :=
  signedWith lib (loadConfig (envOf [])).JWT.Secret "h.c"
    (accessClaims (loadConfig (envOf [])) (IssueClock.uniform (1000 * Second)) 2 "bob" role)

/-! ## Password helpers: properties -/

theorem append_hashed_injective (p q : String) (h : p ++ "_hashed" = q ++ "_hashed") :
    p = q := by
  have h1 : (p ++ "_hashed").data = (q ++ "_hashed").data := by rw [h]
  rw [String.data_append, String.data_append] at h1
  exact String.ext (List.append_cancel_right h1)

/-- Claim C6: for every plaintext `p`, `VerifyPassword` accepts `p` against
the digest `HashPassword p` returns, and `HashPassword` returns no error. -/
theorem verifyPassword_hashPassword (p : String) :
    VerifyPassword p (HashPassword p).1 = true ∧ (HashPassword p).2 = none := by
  simp [VerifyPassword, HashPassword]

/-- Claim C7: for plaintexts `p ≠ q`, `VerifyPassword p` rejects the digest
of `q`; and `VerifyPassword p`, a total boolean function, rejects every
string `d` that is not the digest of `p`, malformed or not. -/
theorem verifyPassword_rejects (p q d : String) (hpq : p ≠ q)
    (hd : d ≠ (HashPassword p).1) :
    VerifyPassword p (HashPassword q).1 = false ∧ VerifyPassword p d = false := by
  constructor
  · simp only [VerifyPassword, HashPassword, beq_eq_false_iff_ne, ne_eq]
    exact fun h => hpq (append_hashed_injective p q h)
  · simp only [VerifyPassword, HashPassword, beq_eq_false_iff_ne, ne_eq] at hd ⊢
    exact fun h => hd h.symm

theorem verifyPassword_rejects_witness :
    VerifyPassword "alice" (HashPassword "bob").1 = false ∧
      VerifyPassword "alice" "$2a$10$not-a-digest" = false :=
  verifyPassword_rejects "alice" "bob" "$2a$10$not-a-digest" (by decide) (by decide)

/-- Claim C8, refuted as stated: `HashPassword` reads no source of randomness,
so two calls on the plaintext "hunter2" return the same digest,
"hunter2_hashed". -/
theorem hashPassword_repeats :
    HashPassword "hunter2" = ("hunter2_hashed", none) ∧
      ¬ ((HashPassword "hunter2").1 ≠ (HashPassword "hunter2").1) := by
  constructor
  · decide
  · simp

/-- Claim C8, amended: the digest of `p` is `p` followed by "_hashed", the
same at every call, and two digests are equal exactly when the plaintexts
are. -/
theorem hashPassword_deterministic (p q : String) :
    (HashPassword p).1 = p ++ "_hashed" ∧
      ((HashPassword p).1 = (HashPassword q).1 ↔ p = q) := by
  refine ⟨rfl, ?_, ?_⟩
  · exact append_hashed_injective p q
  · intro h
    rw [h]

/-! ## Time and signing: auxiliary facts -/

theorem newNumericDate_eq (t : Time) : NewNumericDate t = t / Second * Second := by
  have key : ∀ x : Int,
      x - (x - -62135596800 * 1000000000) % 1000000000 = x / 1000000000 * 1000000000 := by
    intro x
    omega
  unfold NewNumericDate Truncate TimePrecision zeroTime Second
  rw [if_neg (by decide)]
  exact key t

theorem secondsDuration_eq (n : Int) (h1 : -9223372036 ≤ n) (h2 : n ≤ 9223372036) :
    secondsDuration n = n * Second := by
  unfold secondsDuration wrapInt64 Second
  omega

theorem generateJWT_eq (lib : Primitives) (cfg : Config) (clock : IssueClock) (userID : Nat)
    (username role : String) :
    GenerateJWT lib cfg clock userID username role =
      .ok (.compact (lib.signingString "HS256" (accessClaims cfg clock userID username role))
          (some "HS256") (accessClaims cfg clock userID username role)
          (some (hmacSum lib.sha256 64 (goBytes cfg.JWT.Secret)
            (goBytes (lib.signingString "HS256"
              (accessClaims cfg clock userID username role))))),
        Add clock.expiry (secondsDuration cfg.JWT.ExpirationTime)) := rfl

theorem getSigningMethod_alg (name : String) (m : SigningMethod)
    (h : GetSigningMethod name = some m) : m.Alg = name := by
  unfold GetSigningMethod at h
  have := List.find?_some h
  simpa using this

theorem validateJWT_of_tag (lib : Primitives) (cfg : Config) (v : ValidateClock)
    (text name : String) (m : SigningMethod) (claims : JWTClaims) (sig : Bytes)
    (exp nbf : Time) (hm : GetSigningMethod name = some m) (hh : m.isHMAC = true)
    (htag : hmacTag lib m (goBytes cfg.JWT.Secret) (goBytes text) = some sig)
    (hexp : claims.ExpiresAt = some exp) (hnbf : claims.NotBefore = some nbf)
    (h1 : nbf ≤ v.validator) (h2 : v.validator < exp) (h3 : v.expiryCheck ≤ exp)
    (h4 : nbf ≤ v.notBeforeCheck) :
    ValidateJWT lib cfg v (.compact text (some name) claims (some sig)) = .ok claims := by
  simp [ValidateJWT, ParseWithClaims, ParseUnverified, hm, keyFunc, hh, Verify, htag,
    Validate, hexp, hnbf, Before, After, h2, not_lt.mpr h1, not_lt.mpr h3, not_lt.mpr h4]

theorem validate_ok_iff (now : Time) (claims : JWTClaims) :
    Validate now claims = .ok () ↔
      (∀ exp, claims.ExpiresAt = some exp → now < exp) ∧
      (∀ nbf, claims.NotBefore = some nbf → nbf ≤ now) := by
  simp only [Validate, Before]
  rcases claims.ExpiresAt with _ | exp <;> rcases claims.NotBefore with _ | nbf <;> simp
  split_ifs <;> simp_all

theorem validate_not_panicked (now : Time) (claims : JWTClaims) :
    Validate now claims ≠ .panicked := by
  simp only [Validate]
  split_ifs <;> simp

/-- What a successful `ParseWithClaims` under the key function of `ValidateJWT`
says about the token string. -/
theorem parseWithClaims_ok_inv (lib : Primitives) (cfg : Config) (now : Time)
    (ts : TokenString) (token : Token)
    (h : ParseWithClaims lib (keyFunc cfg) now ts = .ok token) :
    ∃ text name sig, ts = .compact text (some name) token.Claims (some sig) ∧
      GetSigningMethod name = some token.Method ∧ token.Method.isHMAC = true ∧
      hmacTag lib token.Method (goBytes cfg.JWT.Secret) (goBytes text) = some sig ∧
      Validate now token.Claims = .ok () ∧ token.Valid = true := by
  cases ts with
  | malformed => simp [ParseWithClaims, ParseUnverified] at h
  | compact text alg claims sig =>
    cases alg with
    | none => simp [ParseWithClaims, ParseUnverified] at h
    | some name =>
      cases hm : GetSigningMethod name with
      | none => simp [ParseWithClaims, ParseUnverified, hm] at h
      | some m =>
        cases sig with
        | none => simp [ParseWithClaims, ParseUnverified, hm] at h
        | some s =>
          by_cases hh : m.isHMAC = true
          · cases htag : hmacTag lib m (goBytes cfg.JWT.Secret) (goBytes text) with
            | none =>
              simp [ParseWithClaims, ParseUnverified, hm, keyFunc, hh, Verify, htag] at h
            | some tag =>
              by_cases hs : s = tag
              · cases hV : Validate now claims with
                | ok u =>
                  simp [ParseWithClaims, ParseUnverified, hm, keyFunc, hh, Verify, htag, hs,
                    hV] at h
                  subst h
                  exact ⟨text, name, s, rfl, hm, hh, by rw [htag, hs], hV, rfl⟩
                | error e =>
                  simp [ParseWithClaims, ParseUnverified, hm, keyFunc, hh, Verify, htag, hs,
                    hV] at h
                | panicked =>
                  simp [ParseWithClaims, ParseUnverified, hm, keyFunc, hh, Verify, htag, hs,
                    hV] at h
              · simp [ParseWithClaims, ParseUnverified, hm, keyFunc, hh, Verify, htag, hs] at h
          · simp [ParseWithClaims, ParseUnverified, hm, keyFunc, hh] at h

theorem parseWithClaims_not_panicked (lib : Primitives) (cfg : Config) (now : Time)
    (ts : TokenString) : ParseWithClaims lib (keyFunc cfg) now ts ≠ .panicked := by
  intro h
  cases ts with
  | malformed => simp [ParseWithClaims, ParseUnverified] at h
  | compact text alg claims sig =>
    cases alg with
    | none => simp [ParseWithClaims, ParseUnverified] at h
    | some name =>
      cases hm : GetSigningMethod name with
      | none => simp [ParseWithClaims, ParseUnverified, hm] at h
      | some m =>
        cases sig with
        | none => simp [ParseWithClaims, ParseUnverified, hm] at h
        | some s =>
          by_cases hh : m.isHMAC = true
          · cases htag : hmacTag lib m (goBytes cfg.JWT.Secret) (goBytes text) with
            | none =>
              simp [ParseWithClaims, ParseUnverified, hm, keyFunc, hh, Verify, htag] at h
            | some tag =>
              by_cases hs : s = tag
              · cases hV : Validate now claims with
                | ok u =>
                  simp [ParseWithClaims, ParseUnverified, hm, keyFunc, hh, Verify, htag, hs,
                    hV] at h
                | error e =>
                  simp [ParseWithClaims, ParseUnverified, hm, keyFunc, hh, Verify, htag, hs,
                    hV] at h
                | panicked => exact validate_not_panicked _ _ hV
              · simp [ParseWithClaims, ParseUnverified, hm, keyFunc, hh, Verify, htag, hs] at h
          · simp [ParseWithClaims, ParseUnverified, hm, keyFunc, hh] at h

theorem isError_of_parse_error (lib : Primitives) (cfg : Config) (v : ValidateClock)
    (ts : TokenString)
    (h : ∀ token, ParseWithClaims lib (keyFunc cfg) v.validator ts ≠ .ok token) :
    (ValidateJWT lib cfg v ts).isError = true := by
  unfold ValidateJWT
  cases hp : ParseWithClaims lib (keyFunc cfg) v.validator ts with
  | ok token => exact absurd hp (h token)
  | error e => rfl
  | panicked => exact absurd hp (parseWithClaims_not_panicked _ _ _ _)

theorem getSigningMethod_of_alg (m : SigningMethod) : GetSigningMethod m.Alg = some m := by
  cases m <;> decide

/-- HMAC pads a short key with zero bytes, so a key and the same key
followed by a zero byte have the same tags. -/
theorem hmacSum_zero_padded (h : Bytes → Bytes) (blockSize : Nat) (key msg : Bytes)
    (hlen : key.length < blockSize) :
    hmacSum h blockSize (key ++ [0]) msg = hmacSum h blockSize key msg := by
  have h1 : ¬ (key ++ [0]).length > blockSize := by
    simp only [List.length_append, List.length_singleton]
    omega
  have h2 : ¬ key.length > blockSize := by omega
  have hblock : (key ++ [0]).take blockSize ++
        List.replicate (blockSize - (key ++ [0]).length) (0 : UInt8) =
      key.take blockSize ++ List.replicate (blockSize - key.length) 0 := by
    rw [List.take_of_length_le (by simp only [List.length_append, List.length_singleton]; omega),
      List.take_of_length_le (by omega)]
    have h3 : blockSize - key.length = (blockSize - (key ++ [0]).length) + 1 := by
      simp only [List.length_append, List.length_singleton]
      omega
    rw [h3, List.replicate_succ, List.append_assoc]
    rfl
  simp only [hmacSum, if_neg h1, if_neg h2, hblock]

/-! ## Token validation: the claims of the specification -/

/-- Claim C1: for every (userID, username, role), when the clock readings
taken during validation are not before the reading `GenerateJWT` took for
the not-before of the token (validation does not precede issuance) and are
strictly before the expiry embedded in the token, `ValidateJWT` (same
configuration, so the same secret) succeeds on the token `GenerateJWT`
returns, and the claims it returns carry the UserID, the Username and the
Role that were passed to `GenerateJWT`. -/
theorem validateJWT_generateJWT (lib : Primitives) (cfg : Config) (clock : IssueClock)
    (v : ValidateClock) (userID : Nat) (username role : String) (exp : Time)
    (hexp : (accessClaims cfg clock userID username role).ExpiresAt = some exp)
    (h1 : clock.notBefore ≤ v.validator ∧ v.validator < exp)
    (h2 : clock.notBefore ≤ v.expiryCheck ∧ v.expiryCheck < exp)
    (h3 : clock.notBefore ≤ v.notBeforeCheck ∧ v.notBeforeCheck < exp) :
    ∃ tok e c, GenerateJWT lib cfg clock userID username role = .ok (tok, e) ∧
      tok.claims? = some (accessClaims cfg clock userID username role) ∧
      ValidateJWT lib cfg v tok = .ok c ∧
      c.UserID = userID ∧ c.Username = username ∧ c.Role = role := by
  have hfloor : NewNumericDate clock.notBefore ≤ clock.notBefore := by
    rw [newNumericDate_eq]
    have key : ∀ t : Int, t / 1000000000 * 1000000000 ≤ t := by
      intro t
      omega
    exact key clock.notBefore
  refine ⟨_, _, accessClaims cfg clock userID username role, generateJWT_eq _ _ _ _ _ _, rfl, ?_,
    rfl, rfl, rfl⟩
  exact validateJWT_of_tag lib cfg v _ "HS256" .HS256 _ _ exp (NewNumericDate clock.notBefore)
    (by decide) rfl rfl hexp rfl (le_trans hfloor h1.1) h1.2 (le_of_lt h2.2)
    (le_trans hfloor h3.1)

theorem validateJWT_generateJWT_witness :
    ∃ tok e c, GenerateJWT samplePrimitives (loadConfig (envOf []))
        (IssueClock.uniform (1000 * Second)) 7 "alice" "user" = .ok (tok, e) ∧
      tok.claims? = some (accessClaims (loadConfig (envOf []))
        (IssueClock.uniform (1000 * Second)) 7 "alice" "user") ∧
      ValidateJWT samplePrimitives (loadConfig (envOf []))
        (ValidateClock.uniform (2000 * Second)) tok = .ok c ∧
      c.UserID = 7 ∧ c.Username = "alice" ∧ c.Role = "user" :=
  validateJWT_generateJWT samplePrimitives (loadConfig (envOf []))
    (IssueClock.uniform (1000 * Second)) (ValidateClock.uniform (2000 * Second)) 7 "alice" "user"
    (87400 * Second) (by decide) (by decide) (by decide) (by decide)

/-- Claim C2: for every token string that carries an expires-at, whenever a
clock reading at which expiry is checked (by the library validator or by the
explicit check after it) is after that expires-at, `ValidateJWT` returns an
error, whatever the signature. -/
theorem validateJWT_expired (lib : Primitives) (cfg : Config) (v : ValidateClock)
    (ts : TokenString) (claims : JWTClaims) (exp : Time)
    (hc : ts.claims? = some claims) (hexp : claims.ExpiresAt = some exp)
    (h : exp < v.validator ∨ exp < v.expiryCheck) :
    (ValidateJWT lib cfg v ts).isError = true := by
  cases hp : ParseWithClaims lib (keyFunc cfg) v.validator ts with
  | error e => simp [ValidateJWT, hp, Result.isError]
  | panicked => exact absurd hp (parseWithClaims_not_panicked _ _ _ _)
  | ok token =>
    obtain ⟨text, name, sig, hts, -, -, -, hV, hvalid⟩ := parseWithClaims_ok_inv _ _ _ _ _ hp
    have hcl : token.Claims = claims := by
      rw [hts] at hc
      simpa [TokenString.claims?] using hc
    have hexp2 : token.Claims.ExpiresAt = some exp := by rw [hcl]; exact hexp
    have hlt := ((validate_ok_iff _ _).mp hV).1 exp hexp2
    have hafter : exp < v.expiryCheck := by
      rcases h with h | h
      · exact absurd hlt (not_lt.mpr (le_of_lt h))
      · exact h
    simp [ValidateJWT, hp, hvalid, hexp2, After, hafter, Result.isError]

theorem validateJWT_expired_witness :
    ∃ tok e, GenerateJWT samplePrimitives (loadConfig (envOf []))
        (IssueClock.uniform (1000 * Second)) 7 "alice" "user" = .ok (tok, e) ∧
      (ValidateJWT samplePrimitives (loadConfig (envOf []))
        (ValidateClock.uniform (90000 * Second)) tok).isError = true :=
  ⟨_, _, generateJWT_eq _ _ _ _ _ _,
    validateJWT_expired samplePrimitives (loadConfig (envOf []))
      (ValidateClock.uniform (90000 * Second)) _ _ (87400 * Second) rfl (by decide)
      (Or.inl (by decide))⟩

/-- Claim C3, refuted as stated: under the default configuration, a token
with forged claims (role "admin") signed with the configured secret followed
by a zero byte, which is a different secret, is accepted by `ValidateJWT`,
for every hash function: HMAC pads both keys to the same block. -/
theorem validateJWT_accepts_padded_secret :
    "your-secret-key-change-this-in-production\x00" ≠ (loadConfig (envOf [])).JWT.Secret ∧
      ∀ lib : Primitives, ∃ tok,
        SignedString lib .HS256
            (accessClaims (loadConfig (envOf [])) (IssueClock.uniform (1000 * Second))
              7 "alice" "admin")
            (goBytes "your-secret-key-change-this-in-production\x00") = .ok tok ∧
          ValidateJWT lib (loadConfig (envOf [])) (ValidateClock.uniform (1000 * Second)) tok =
            .ok (accessClaims (loadConfig (envOf [])) (IssueClock.uniform (1000 * Second))
              7 "alice" "admin") := by
  refine ⟨by decide, fun lib => ⟨_, rfl, ?_⟩⟩
  have hkey : goBytes "your-secret-key-change-this-in-production\x00" =
      goBytes (loadConfig (envOf [])).JWT.Secret ++ [0] := by decide
  have hlen : (goBytes (loadConfig (envOf [])).JWT.Secret).length < 64 := by decide
  refine validateJWT_of_tag lib _ _ _ "HS256" .HS256 _ _ (87400 * Second) (1000 * Second)
    (by decide) rfl ?_ (by decide) (by decide) (by decide) (by decide) (by decide) (by decide)
  simp only [hmacTag, SigningMethod.Alg, hkey]
  rw [hmacSum_zero_padded _ _ _ _ hlen]

/-- Claim C3, amended: for every token signed with a secret whose HMAC tag
over the token's signing string differs from the tag the configured secret
gives there, `ValidateJWT` returns an error, whatever the claims the token
carries and whichever signing method signed it. -/
theorem validateJWT_rejects_other_tag (lib : Primitives) (cfg : Config) (v : ValidateClock)
    (m : SigningMethod) (claims : JWTClaims) (secret2 : String) (tok : TokenString)
    (hs : SignedString lib m claims (goBytes secret2) = .ok tok)
    (hne : hmacTag lib m (goBytes secret2) (goBytes (lib.signingString m.Alg claims)) ≠
      hmacTag lib m (goBytes cfg.JWT.Secret) (goBytes (lib.signingString m.Alg claims))) :
    (ValidateJWT lib cfg v tok).isError = true := by
  apply isError_of_parse_error
  intro token hp
  obtain ⟨text, name, sig, hts, hm, -, htag, -, -⟩ := parseWithClaims_ok_inv _ _ _ _ _ hp
  cases htag2 : hmacTag lib m (goBytes secret2) (goBytes (lib.signingString m.Alg claims)) with
  | none => simp [SignedString, Sign, htag2] at hs
  | some tag2 =>
    simp only [SignedString, Sign, htag2] at hs
    injection hs with hs
    rw [hts] at hs
    injection hs with htext hname _ hsig
    injection hname with hname
    injection hsig with hsig
    have hmeth : token.Method = m := by
      have := getSigningMethod_of_alg m
      rw [hname, hm] at this
      exact Option.some.inj this
    apply hne
    rw [htag2, htext, hsig, ← hmeth]
    exact htag.symm

theorem validateJWT_rejects_other_tag_witness :
    (ValidateJWT samplePrimitives (loadConfig (envOf [])) (ValidateClock.uniform (1000 * Second))
      (.compact "HS256.user:7" (some "HS256")
        (accessClaims (loadConfig (envOf [])) (IssueClock.uniform (1000 * Second))
          7 "alice" "admin")
        (some (hmacSum samplePrimitives.sha256 64 (goBytes "guess")
          (goBytes "HS256.user:7"))))).isError = true :=
  validateJWT_rejects_other_tag samplePrimitives (loadConfig (envOf []))
    (ValidateClock.uniform (1000 * Second)) .HS256
    (accessClaims (loadConfig (envOf [])) (IssueClock.uniform (1000 * Second)) 7 "alice" "admin")
    "guess" _ rfl (by decide)

theorem isHMAC_alg (m : SigningMethod) (h : m.isHMAC = true) :
    m.Alg = "HS256" ∨ m.Alg = "HS384" ∨ m.Alg = "HS512" := by
  cases m <;> simp [SigningMethod.isHMAC, SigningMethod.Alg] at h ⊢

/-- Claim C4: for every token whose `alg` header is not one of the HMAC
names HS256, HS384, HS512 (absent, unknown, or naming a registered method of
another family), `ValidateJWT` returns an error; and for every method such a
header names, the key function returns an error instead of the configured
secret. -/
theorem validateJWT_rejects_non_hmac (lib : Primitives) (cfg : Config) (v : ValidateClock)
    (text : String) (alg : Option String) (claims : JWTClaims) (sig : Option Bytes)
    (h : alg ≠ some "HS256" ∧ alg ≠ some "HS384" ∧ alg ≠ some "HS512") :
    (ValidateJWT lib cfg v (.compact text alg claims sig)).isError = true ∧
      ∀ token : Token, alg.bind GetSigningMethod = some token.Method →
        (keyFunc cfg token).isError = true := by
  have key : ∀ m : SigningMethod, alg.bind GetSigningMethod = some m → m.isHMAC = false := by
    intro m hm
    rcases alg with _ | name
    · simp at hm
    · simp only [Option.bind] at hm
      have hname := getSigningMethod_alg name m hm
      cases hh : m.isHMAC with
      | false => rfl
      | true =>
        exfalso
        rcases isHMAC_alg m hh with h1 | h1 | h1
        · exact h.1 (by rw [← hname, h1])
        · exact h.2.1 (by rw [← hname, h1])
        · exact h.2.2 (by rw [← hname, h1])
  constructor
  · apply isError_of_parse_error
    intro token hp
    obtain ⟨text2, name, sig2, hts, hm, hh, -, -, -⟩ := parseWithClaims_ok_inv _ _ _ _ _ hp
    injection hts with _ halg _ _
    have := key token.Method (by rw [halg]; exact hm)
    rw [hh] at this
    exact absurd this (by decide)
  · intro token hm
    simp [keyFunc, key token.Method hm, Result.isError]

theorem validateJWT_rejects_non_hmac_witness :
    (ValidateJWT samplePrimitives (loadConfig (envOf [])) (ValidateClock.uniform (1000 * Second))
        (.compact "RS256.user:7" (some "RS256")
          (accessClaims (loadConfig (envOf [])) (IssueClock.uniform (1000 * Second))
            7 "alice" "admin")
          (some (goBytes (loadConfig (envOf [])).JWT.Secret)))).isError = true ∧
      ∀ token : Token, (some "RS256").bind GetSigningMethod = some token.Method →
        (keyFunc (loadConfig (envOf [])) token).isError = true :=
  validateJWT_rejects_non_hmac samplePrimitives (loadConfig (envOf []))
    (ValidateClock.uniform (1000 * Second)) "RS256.user:7" (some "RS256") _ _
    ⟨by decide, by decide, by decide⟩

/-- Claim C5: for every (u, n, r), `ParseJWTWithoutValidation` succeeds on
the token `GenerateJWT` returns and gives back claims with UserID u,
Username n and Role r. It reads no clock and checks no signature, so this
holds at every clock reading, after the token's expiry included. -/
theorem parseJWTWithoutValidation_generateJWT (lib : Primitives) (cfg : Config)
    (clock : IssueClock) (userID : Nat) (username role : String) :
    ∃ tok e c, GenerateJWT lib cfg clock userID username role = .ok (tok, e) ∧
      ParseJWTWithoutValidation tok = .ok c ∧
      c.UserID = userID ∧ c.Username = username ∧ c.Role = role := by
  refine ⟨_, _, accessClaims cfg clock userID username role, generateJWT_eq _ _ _ _ _ _, ?_,
    rfl, rfl, rfl⟩
  have hm : GetSigningMethod "HS256" = some .HS256 := by decide
  simp [ParseJWTWithoutValidation, ParseUnverified, hm]

/-! ## Token issuance: the claims of the specification -/

/-- Claim C9, refuted as stated: issued at the clock reading 1.5 s under the
default configuration (TTL 86400 s), the token embeds expires-at 86401 s and
issued-at 1 s, which are not `now + TTL` and `now`, and `GenerateJWT` returns
the expiry 86401.5 s, which is not the embedded expires-at. -/
theorem generateJWT_expiry_not_embedded :
    ∃ (e : Time) (c : JWTClaims),
      (∀ lib : Primitives, ∃ tok,
        GenerateJWT lib (loadConfig (envOf [])) (IssueClock.uniform 1500000000)
          7 "alice" "user" = .ok (tok, e) ∧ tok.claims? = some c) ∧
      e = 1500000000 + 86400 * Second ∧
      c.ExpiresAt = some (86401 * Second) ∧ c.ExpiresAt ≠ some e ∧
      c.IssuedAt = some (1 * Second) ∧ c.IssuedAt ≠ some 1500000000 := by
  refine ⟨_, _, fun lib => ⟨_, generateJWT_eq _ _ _ _ _ _, rfl⟩, ?_, ?_, ?_, ?_, ?_⟩ <;> decide

/-- Claim C9, amended: for every (userID, username, role), every clock and
every configured TTL between -9223372036 and 9223372036 seconds (so that the
64-bit duration does not overflow), `GenerateJWT` succeeds and builds claims
with UserID, Username and Role equal to the inputs; expires-at, issued-at and
not-before are the whole seconds of, respectively, `now + TTL`, `now` and
`now`, each `now` being the clock reading taken for that field; issuer is the
configured issuer, subject is "user:" followed by the decimal userID, and the
token id is the decimal userID, "_", and the decimal Unix seconds of the
reading taken for it. The expiry time it returns is `now + TTL` itself: it
exceeds the embedded expires-at by the sub-second part of `now`, which is
less than one second, and equals it exactly when `now` is a whole second. -/
theorem generateJWT_claims (lib : Primitives) (cfg : Config) (clock : IssueClock)
    (userID : Nat) (username role : String)
    (hlo : -9223372036 ≤ cfg.JWT.ExpirationTime) (hhi : cfg.JWT.ExpirationTime ≤ 9223372036) :
    ∃ tok e c, GenerateJWT lib cfg clock userID username role = .ok (tok, e) ∧
      tok.claims? = some c ∧
      c.UserID = userID ∧ c.Username = username ∧ c.Role = role ∧
      c.ExpiresAt = some ((Unix clock.expiry + cfg.JWT.ExpirationTime) * Second) ∧
      c.IssuedAt = some (Unix clock.issuedAt * Second) ∧
      c.NotBefore = some (Unix clock.notBefore * Second) ∧
      c.Issuer = cfg.JWT.Issuer ∧
      c.Subject = "user:" ++ toString userID ∧
      c.ID = toString userID ++ "_" ++ toString (Unix clock.tokenID) ∧
      e = clock.expiry + cfg.JWT.ExpirationTime * Second ∧
      c.ExpiresAt = some (e - clock.expiry % Second) ∧
      0 ≤ clock.expiry % Second ∧ clock.expiry % Second < Second := by
  have hd := secondsDuration_eq cfg.JWT.ExpirationTime hlo hhi
  have harith : ∀ x n : Int, (x + n * 1000000000) / 1000000000 * 1000000000 =
      (x / 1000000000 + n) * 1000000000 ∧
      (x / 1000000000 + n) * 1000000000 = x + n * 1000000000 - x % 1000000000 ∧
      0 ≤ x % 1000000000 ∧ x % 1000000000 < 1000000000 := by
    intro x n
    omega
  obtain ⟨a1, a2, a3, a4⟩ := harith clock.expiry cfg.JWT.ExpirationTime
  have hE : (accessClaims cfg clock userID username role).ExpiresAt =
      some ((Unix clock.expiry + cfg.JWT.ExpirationTime) * Second) := by
    simp only [accessClaims, Add, hd, newNumericDate_eq, Unix, Second]
    exact congrArg some a1
  refine ⟨_, _, accessClaims cfg clock userID username role, generateJWT_eq _ _ _ _ _ _, rfl,
    rfl, rfl, rfl, hE, ?_, ?_, rfl, rfl, rfl, ?_, ?_, ?_, ?_⟩
  · simp only [accessClaims, newNumericDate_eq, Unix]
  · simp only [accessClaims, newNumericDate_eq, Unix]
  · simp only [Add, hd]
  · rw [hE]
    simp only [Unix, Add, hd, Second]
    exact congrArg some a2
  · exact a3
  · exact a4

theorem generateJWT_claims_witness :
    ∃ tok e c, GenerateJWT samplePrimitives (loadConfig (envOf []))
        (IssueClock.uniform 1500000000) 7 "alice" "user" = .ok (tok, e) ∧
      tok.claims? = some c ∧
      c.UserID = 7 ∧ c.Username = "alice" ∧ c.Role = "user" ∧
      c.ExpiresAt = some ((Unix (IssueClock.uniform 1500000000).expiry +
        (loadConfig (envOf [])).JWT.ExpirationTime) * Second) ∧
      c.IssuedAt = some (Unix (IssueClock.uniform 1500000000).issuedAt * Second) ∧
      c.NotBefore = some (Unix (IssueClock.uniform 1500000000).notBefore * Second) ∧
      c.Issuer = (loadConfig (envOf [])).JWT.Issuer ∧
      c.Subject = "user:" ++ toString 7 ∧
      c.ID = toString 7 ++ "_" ++ toString (Unix (IssueClock.uniform 1500000000).tokenID) ∧
      e = (IssueClock.uniform 1500000000).expiry +
        (loadConfig (envOf [])).JWT.ExpirationTime * Second ∧
      c.ExpiresAt = some (e - (IssueClock.uniform 1500000000).expiry % Second) ∧
      0 ≤ (IssueClock.uniform 1500000000).expiry % Second ∧
      (IssueClock.uniform 1500000000).expiry % Second < Second :=
  generateJWT_claims samplePrimitives (loadConfig (envOf [])) (IssueClock.uniform 1500000000)
    7 "alice" "user" (by decide) (by decide)

theorem generateTokenPair_eq (lib : Primitives) (cfg : Config) (clock : IssueClock)
    (refreshClock : RefreshClock) (user : User) :
    GenerateTokenPair lib cfg clock refreshClock user =
      .ok (.compact (lib.signingString "HS256"
              (accessClaims cfg clock user.ID user.Username user.Role))
            (some "HS256") (accessClaims cfg clock user.ID user.Username user.Role)
            (some (hmacSum lib.sha256 64 (goBytes cfg.JWT.Secret)
              (goBytes (lib.signingString "HS256"
                (accessClaims cfg clock user.ID user.Username user.Role))))),
          .compact (lib.signingString "HS256" (refreshClaims cfg refreshClock user))
            (some "HS256") (refreshClaims cfg refreshClock user)
            (some (hmacSum lib.sha256 64 (goBytes cfg.JWT.Secret)
              (goBytes (lib.signingString "HS256" (refreshClaims cfg refreshClock user))))),
          Add clock.expiry (secondsDuration cfg.JWT.ExpirationTime)) := rfl

/-- Claim C10, refuted as stated: with JWT_EXPIRATION_TIME set to "0",
`loadConfig` produces a TTL of 0 and the claims of the access token issued at
the clock reading 1000 s have expires-at = not-before = 1000 s, so
expires-at > not-before fails. -/
theorem accessClaims_window_zero_ttl :
    ∃ c : JWTClaims,
      (∀ lib : Primitives, ∃ tok e,
        GenerateJWT lib (loadConfig (envOf [("JWT_EXPIRATION_TIME", "0")]))
          (IssueClock.uniform (1000 * Second)) 7 "alice" "user" = .ok (tok, e) ∧
        tok.claims? = some c) ∧
      c.ExpiresAt = some (1000 * Second) ∧ c.NotBefore = some (1000 * Second) ∧
      windowOrdered c = false := by
  refine ⟨_, fun lib => ⟨_, _, generateJWT_eq _ _ _ _ _ _, rfl⟩, ?_, ?_, ?_⟩ <;> decide

/-- Claim C10, amended: under every configuration `loadConfig` produces,
when within a call the issued-at reading of the clock is not after the
not-before reading, and for the refresh token the not-before reading is at
most 7 days − 1 second after the reading its expiry is computed from, the
claims of the refresh token built by `GenerateTokenPair` satisfy
expires-at > not-before ≥ issued-at; the claims of the access token built by
`GenerateJWT` satisfy it when moreover 1 ≤ TTL ≤ 9223372036 seconds and the
not-before reading is at most TTL − 1 seconds after the reading the expiry is
computed from. Readings that coincide meet all the conditions on the clock. -/
theorem tokenPair_windowOrdered (lib : Primitives) (env : Env) (clock : IssueClock)
    (refreshClock : RefreshClock) (user : User)
    (hc1 : clock.issuedAt ≤ clock.notBefore)
    (hr1 : refreshClock.issuedAt ≤ refreshClock.notBefore)
    (hr2 : refreshClock.notBefore - refreshClock.expiry ≤ (7 * 24 * 3600 - 1) * Second) :
    ∃ access refresh e ca cr,
      GenerateTokenPair lib (loadConfig env) clock refreshClock user =
        .ok (access, refresh, e) ∧
      GenerateJWT lib (loadConfig env) clock user.ID user.Username user.Role =
        .ok (access, e) ∧
      access.claims? = some ca ∧ refresh.claims? = some cr ∧
      windowOrdered cr = true ∧
      (1 ≤ (loadConfig env).JWT.ExpirationTime →
        (loadConfig env).JWT.ExpirationTime ≤ 9223372036 →
        clock.notBefore - clock.expiry ≤ ((loadConfig env).JWT.ExpirationTime - 1) * Second →
        windowOrdered ca = true) := by
  have harith : ∀ x y z n : Int, 1 ≤ n → y ≤ z → z - x ≤ (n - 1) * 1000000000 →
      z / 1000000000 * 1000000000 < (x + n * 1000000000) / 1000000000 * 1000000000 ∧
      y / 1000000000 * 1000000000 ≤ z / 1000000000 * 1000000000 := by
    intro x y z n h1 h2 h3
    omega
  refine ⟨_, _, _, accessClaims (loadConfig env) clock user.ID user.Username user.Role,
    refreshClaims (loadConfig env) refreshClock user, generateTokenPair_eq _ _ _ _ _,
    generateJWT_eq _ _ _ _ _ _, rfl, rfl, ?_, ?_⟩
  · have := harith refreshClock.expiry refreshClock.issuedAt refreshClock.notBefore
      (7 * 24 * 3600) (by decide) hr1 (by simpa only [Second] using hr2)
    simp only [windowOrdered, refreshClaims, Add, Hour, newNumericDate_eq, Second,
      Bool.and_eq_true, decide_eq_true_eq]
    have h7 : (7 : Int) * 24 * (3600 * 1000000000) = 7 * 24 * 3600 * 1000000000 := by decide
    rw [h7]
    exact this
  · intro hlo hhi hc2
    have hd := secondsDuration_eq (loadConfig env).JWT.ExpirationTime (by omega) hhi
    have := harith clock.expiry clock.issuedAt clock.notBefore _ hlo hc1
      (by simpa only [Second] using hc2)
    simp only [windowOrdered, accessClaims, Add, hd, newNumericDate_eq, Second,
      Bool.and_eq_true, decide_eq_true_eq]
    exact this

theorem tokenPair_windowOrdered_witness :
    ∃ access refresh e ca cr,
      GenerateTokenPair samplePrimitives (loadConfig (envOf [("JWT_EXPIRATION_TIME", "1")]))
          (IssueClock.uniform 1500000000) (RefreshClock.uniform 1500000000)
          { ID := 7, Username := "alice", Email := "alice@example.com",
            Password := "alice_hashed", FirstName := "", LastName := "", Avatar := "",
            Role := "user", Status := "active", LastLogin := none, CreatedAt := 0,
            UpdatedAt := 0, DeletedAt := none } =
        .ok (access, refresh, e) ∧
      GenerateJWT samplePrimitives (loadConfig (envOf [("JWT_EXPIRATION_TIME", "1")]))
          (IssueClock.uniform 1500000000) 7 "alice" "user" =
        .ok (access, e) ∧
      access.claims? = some ca ∧ refresh.claims? = some cr ∧
      windowOrdered cr = true ∧ windowOrdered ca = true := by
  obtain ⟨access, refresh, e, ca, cr, h1, h2, h3, h4, h5, h6⟩ :=
    tokenPair_windowOrdered samplePrimitives (envOf [("JWT_EXPIRATION_TIME", "1")])
      (IssueClock.uniform 1500000000) (RefreshClock.uniform 1500000000)
      { ID := 7, Username := "alice", Email := "alice@example.com",
        Password := "alice_hashed", FirstName := "", LastName := "", Avatar := "",
        Role := "user", Status := "active", LastLogin := none, CreatedAt := 0,
        UpdatedAt := 0, DeletedAt := none }
      (by decide) (by decide) (by decide)
  exact ⟨access, refresh, e, ca, cr, h1, h2, h3, h4, h5,
    h6 (by decide) (by decide) (by decide)⟩

/-! ## The auth gate: the claims of the specification -/

/-- Claim C11: for every request whose Authorization header is empty or does
not start with "Bearer ", `JWTAuthentication` writes a body with code 401 and
sets status 401, and returns without calling the downstream handler and
without touching the values of the context. -/
theorem jwtAuthentication_rejects_header (lib : Primitives) (cfg : Config)
    (decode : Bytes → TokenString) (clock : ValidateClock) (ctx : Context)
    (h : ctx.Authorization = [] ∨ bearerPrefix.isPrefixOf ctx.Authorization = false) :
    ∃ b ctx1, JWTAuthentication lib cfg decode clock ctx = .returned ctx1 ∧
      ctx1 = (ctx.JSON b).StatusCode 401 ∧ b.code = 401 ∧ b.token = none ∧
      ctx1.nextCalls = ctx.nextCalls ∧ ctx1.values = ctx.values ∧
      ctx1.Get "user_id" = ctx.Get "user_id" ∧ ctx1.Get "username" = ctx.Get "username" ∧
      ctx1.Get "role" = ctx.Get "role" := by
  by_cases h1 : ctx.Authorization = []
  · exact ⟨plainBody 401 "缺少认证令牌", _, by simp [JWTAuthentication, h1], rfl, rfl, rfl, rfl,
      rfl, rfl, rfl, rfl⟩
  · have h2 : bearerPrefix.isPrefixOf ctx.Authorization = false := by
      rcases h with h | h
      · exact absurd h h1
      · exact h
    exact ⟨plainBody 401 "认证令牌格式错误", _, by simp [JWTAuthentication, h1, h2], rfl, rfl,
      rfl, rfl, rfl, rfl, rfl, rfl⟩

theorem jwtAuthentication_rejects_header_witness :
    ∃ b ctx1, JWTAuthentication samplePrimitives (loadConfig (envOf [])) (decodeOf [])
        (ValidateClock.uniform (1000 * Second)) (Context.request (goBytes "Basic dXNlcg==")) =
          .returned ctx1 ∧
      ctx1 = ((Context.request (goBytes "Basic dXNlcg==")).JSON b).StatusCode 401 ∧
      b.code = 401 ∧ b.token = none ∧
      ctx1.nextCalls = (Context.request (goBytes "Basic dXNlcg==")).nextCalls ∧
      ctx1.values = (Context.request (goBytes "Basic dXNlcg==")).values ∧
      ctx1.Get "user_id" = (Context.request (goBytes "Basic dXNlcg==")).Get "user_id" ∧
      ctx1.Get "username" = (Context.request (goBytes "Basic dXNlcg==")).Get "username" ∧
      ctx1.Get "role" = (Context.request (goBytes "Basic dXNlcg==")).Get "role" :=
  jwtAuthentication_rejects_header samplePrimitives (loadConfig (envOf [])) (decodeOf [])
    (ValidateClock.uniform (1000 * Second)) (Context.request (goBytes "Basic dXNlcg=="))
    (Or.inr (by decide))

/-- The behaviour of `JWTAuthentication` on a header that starts with
"Bearer ", by the three outcomes of `ValidateJWT` on the rest of it. -/
theorem jwtAuthentication_bearer (lib : Primitives) (cfg : Config)
    (decode : Bytes → TokenString) (clock : ValidateClock) (ctx : Context)
    (h : bearerPrefix.isPrefixOf ctx.Authorization = true) :
    (∀ claims, ValidateJWT lib cfg clock
        (decode (ctx.Authorization.drop bearerPrefix.length)) = .ok claims →
      JWTAuthentication lib cfg decode clock ctx =
        .returned ((((ctx.Set "user_id" (.uint claims.UserID)).Set "username"
          (.str claims.Username)).Set "role" (.str claims.Role)).Next)) ∧
    (∀ e, ValidateJWT lib cfg clock
        (decode (ctx.Authorization.drop bearerPrefix.length)) = .error e →
      JWTAuthentication lib cfg decode clock ctx =
        .returned ((ctx.JSON (plainBody 401 ("无效的认证令牌: " ++ e))).StatusCode 401)) ∧
    (ValidateJWT lib cfg clock
        (decode (ctx.Authorization.drop bearerPrefix.length)) = .panicked →
      JWTAuthentication lib cfg decode clock ctx = .panicked) := by
  have hne : ctx.Authorization ≠ [] := by
    intro h0
    rw [h0] at h
    revert h
    decide
  refine ⟨fun claims hv => ?_, fun e hv => ?_, fun hv => ?_⟩ <;>
    simp [JWTAuthentication, hne, h, hv]

/-- A correctly signed token that carries no `exp` passes the library
validator, and `ValidateJWT` then reads `.Time` through the nil `ExpiresAt`. -/
theorem validateJWT_panics_without_exp (lib : Primitives) (cfg : Config) (v : ValidateClock)
    (text : String) (userID : Nat) (username role : String) :
    ValidateJWT lib cfg v
      (signedWith lib cfg.JWT.Secret text (claimsWithoutExpiry userID username role)) =
        .panicked := by
  have hm : GetSigningMethod "HS256" = some .HS256 := by decide
  simp [ValidateJWT, signedWith, ParseWithClaims, ParseUnverified, hm, keyFunc,
    SigningMethod.isHMAC, Verify, hmacTag, Validate, claimsWithoutExpiry]

/-- Claim C12, at the failing input: the header "Bearer t", where t decodes
to an HS256 token correctly signed with the configured secret whose claims
carry no `exp`. `JWTAuthentication` panics: it writes no 401 body, attaches
nothing and does not call the downstream handler. -/
theorem jwtAuthentication_panics (lib : Primitives) :
    JWTAuthentication lib (loadConfig (envOf []))
      (decodeOf [(goBytes "t", signedWith lib (loadConfig (envOf [])).JWT.Secret "h.c"
        (claimsWithoutExpiry 1 "mallory" "admin"))])
      (ValidateClock.uniform (1000 * Second)) (Context.request (goBytes "Bearer t")) =
        .panicked := by
  refine (jwtAuthentication_bearer lib _ _ _ _ (by decide)).2.2 ?_
  have hd : decodeOf [(goBytes "t", signedWith lib (loadConfig (envOf [])).JWT.Secret "h.c"
        (claimsWithoutExpiry 1 "mallory" "admin"))]
      (List.drop bearerPrefix.length (Context.request (goBytes "Bearer t")).Authorization) =
      signedWith lib (loadConfig (envOf [])).JWT.Secret "h.c"
        (claimsWithoutExpiry 1 "mallory" "admin") := by
    have h1 : List.drop bearerPrefix.length (Context.request (goBytes "Bearer t")).Authorization
        = goBytes "t" := by decide
    rw [h1]
    simp [decodeOf]
  rw [hd]
  exact validateJWT_panics_without_exp lib _ _ _ _ _ _

/-- The behaviour of `OptionalAuthentication` by the outcomes of `ValidateJWT`
on the rest of a header that starts with "Bearer ", and on every other
header. -/
theorem optionalAuthentication_cases (lib : Primitives) (cfg : Config)
    (decode : Bytes → TokenString) (clock : ValidateClock) (ctx : Context) :
    (bearerPrefix.isPrefixOf ctx.Authorization = false →
      OptionalAuthentication lib cfg decode clock ctx = .returned ctx.Next) ∧
    (bearerPrefix.isPrefixOf ctx.Authorization = true →
      (∀ claims, ValidateJWT lib cfg clock
          (decode (ctx.Authorization.drop bearerPrefix.length)) = .ok claims →
        OptionalAuthentication lib cfg decode clock ctx =
          .returned ((((ctx.Set "user_id" (.uint claims.UserID)).Set "username"
            (.str claims.Username)).Set "role" (.str claims.Role)).Next)) ∧
      (∀ e, ValidateJWT lib cfg clock
          (decode (ctx.Authorization.drop bearerPrefix.length)) = .error e →
        OptionalAuthentication lib cfg decode clock ctx = .returned ctx.Next) ∧
      (ValidateJWT lib cfg clock
          (decode (ctx.Authorization.drop bearerPrefix.length)) = .panicked →
        OptionalAuthentication lib cfg decode clock ctx = .panicked)) := by
  constructor
  · intro h
    by_cases h1 : ctx.Authorization = [] <;> simp [OptionalAuthentication, h1, h]
  · intro h
    have hne : ctx.Authorization ≠ [] := by
      intro h0
      rw [h0] at h
      revert h
      decide
    refine ⟨fun claims hv => ?_, fun e hv => ?_, fun hv => ?_⟩ <;>
      simp [OptionalAuthentication, hne, h, hv]

/-- Claim C13, at the failing input: the header "Bearer t", where t decodes
to an HS256 token correctly signed with the configured secret whose claims
carry no `exp`. `OptionalAuthentication` panics instead of calling the
downstream handler once. -/
theorem optionalAuthentication_panics (lib : Primitives) :
    OptionalAuthentication lib (loadConfig (envOf []))
      (decodeOf [(goBytes "t", signedWith lib (loadConfig (envOf [])).JWT.Secret "h.c"
        (claimsWithoutExpiry 1 "mallory" "admin"))])
      (ValidateClock.uniform (1000 * Second)) (Context.request (goBytes "Bearer t")) =
        .panicked := by
  refine ((optionalAuthentication_cases lib _ _ _ _).2 (by decide)).2.2 ?_
  have hd : decodeOf [(goBytes "t", signedWith lib (loadConfig (envOf [])).JWT.Secret "h.c"
        (claimsWithoutExpiry 1 "mallory" "admin"))]
      (List.drop bearerPrefix.length (Context.request (goBytes "Bearer t")).Authorization) =
      signedWith lib (loadConfig (envOf [])).JWT.Secret "h.c"
        (claimsWithoutExpiry 1 "mallory" "admin") := by
    have h1 : List.drop bearerPrefix.length (Context.request (goBytes "Bearer t")).Authorization
        = goBytes "t" := by decide
    rw [h1]
    simp [decodeOf]
  rw [hd]
  exact validateJWT_panics_without_exp lib _ _ _ _ _ _

/-- Claim C14: for every list of permitted roles and every context,
whatever the getter of source line 65 returns, `RequireRole` calls the
downstream handler (once, writing nothing) exactly when the getter reports a
role attached to the context and that role is one of the permitted roles;
in every other case it writes a body with code 403, sets status 403 and does
not call the handler. `RequireAdmin` admits exactly the role "admin", and an
empty list of roles admits nobody. -/
theorem requireRole_iff (getString : Context → String → String × Bool) (roles : List String)
    (ctx : Context) :
    (RequireRole getString roles ctx = .returned ctx.Next ↔
      ∃ r, getString ctx "role" = (r, true) ∧ r ∈ roles) ∧
    (RequireRole getString roles ctx = .returned ctx.Next ∨
      ∃ b, RequireRole getString roles ctx = .returned ((ctx.JSON b).StatusCode 403) ∧
        b.code = 403 ∧ ((ctx.JSON b).StatusCode 403).nextCalls = ctx.nextCalls) ∧
    (RequireAdmin getString ctx = .returned ctx.Next ↔
      getString ctx "role" = ("admin", true)) ∧
    RequireRole getString [] ctx ≠ .returned ctx.Next := by
  have hnext : ∀ b : Body, (ctx.JSON b).StatusCode 403 ≠ ctx.Next := by
    intro b hb
    have := congrArg Context.nextCalls hb
    simp [Context.JSON, Context.StatusCode, Context.Next] at this
  have main : ∀ rs : List String,
      (RequireRole getString rs ctx = .returned ctx.Next ↔
        ∃ r, getString ctx "role" = (r, true) ∧ r ∈ rs) ∧
      (RequireRole getString rs ctx = .returned ctx.Next ∨
        ∃ b, RequireRole getString rs ctx = .returned ((ctx.JSON b).StatusCode 403) ∧
          b.code = 403 ∧ ((ctx.JSON b).StatusCode 403).nextCalls = ctx.nextCalls) := by
    intro rs
    rcases hg : getString ctx "role" with ⟨userRole, ok⟩
    cases ok with
    | false =>
      have hr : RequireRole getString rs ctx =
          .returned ((ctx.JSON (plainBody 403 "无法获取用户角色信息")).StatusCode 403) := by
        simp [RequireRole, hg]
      refine ⟨?_, Or.inr ⟨_, hr, rfl, rfl⟩⟩
      rw [hr]
      constructor
      · intro h
        exact absurd (Outcome.returned.inj h) (hnext _)
      · rintro ⟨r, h1, -⟩
        simp at h1
    | true =>
      by_cases hmem : userRole ∈ rs
      · have hr : RequireRole getString rs ctx = .returned ctx.Next := by
          simp [RequireRole, hg, hmem]
        exact ⟨⟨fun _ => ⟨userRole, rfl, hmem⟩, fun _ => hr⟩, Or.inl hr⟩
      · have hr : RequireRole getString rs ctx =
            .returned ((ctx.JSON (plainBody 403 "权限不足")).StatusCode 403) := by
          simp [RequireRole, hg, hmem]
        refine ⟨?_, Or.inr ⟨_, hr, rfl, rfl⟩⟩
        rw [hr]
        constructor
        · intro h
          exact absurd (Outcome.returned.inj h) (hnext _)
        · rintro ⟨r, h1, h2⟩
          simp only [Prod.mk.injEq, and_true] at h1
          exact absurd (h1 ▸ h2) hmem
  refine ⟨(main roles).1, (main roles).2, ?_, ?_⟩
  · rw [RequireAdmin, (main ["admin"]).1]
    constructor
    · rintro ⟨r, h1, h2⟩
      rw [List.mem_singleton] at h2
      rw [h1, h2]
    · intro h
      exact ⟨"admin", h, List.mem_singleton.mpr rfl⟩
  · rw [Ne, (main []).1]
    rintro ⟨r, -, h2⟩
    exact absurd h2 (List.not_mem_nil r)

/-! ## Login and refresh: the claims of the specification -/

theorem leastID_mem (l : List User) (u : User) (h : leastID l = some u) : u ∈ l := by
  induction l generalizing u with
  | nil => simp [leastID] at h
  | cons a l ih =>
    simp only [leastID] at h
    cases hl : leastID l with
    | none =>
      rw [hl] at h
      simp only [Option.some.injEq] at h
      rw [← h]
      exact List.mem_cons_self _ _
    | some v =>
      rw [hl] at h
      simp only at h
      split_ifs at h
      · simp only [Option.some.injEq] at h
        rw [← h]
        exact List.mem_cons_self _ _
      · simp only [Option.some.injEq] at h
        rw [← h]
        exact List.mem_cons_of_mem _ (ih v hl)

/-- What a successful `First` says about the row it returns. -/
theorem first_ok_inv (db : DB) (cond : User → Bool) (u : User) (h : db.First cond = .ok u) :
    u ∈ db.users ∧ u.DeletedAt = none ∧ cond u = true := by
  unfold DB.First at h
  split_ifs at h
  cases hl : leastID (db.users.filter (fun u => u.DeletedAt.isNone && cond u)) with
  | none => simp [hl] at h
  | some v =>
    simp only [hl, Except.ok.injEq] at h
    have hv := leastID_mem _ _ hl
    rw [h] at hv
    simp only [List.mem_filter, Bool.and_eq_true, Option.isNone_iff_eq_none] at hv
    exact ⟨hv.1, hv.2.1, hv.2.2⟩

/-- Without a live, active row of that id, `GetUserByID` returns an error. -/
theorem getUserByID_error (db : DB) (userID : Nat)
    (h : ∀ u ∈ db.users, u.ID = userID → u.DeletedAt ≠ none ∨ u.Status ≠ "active") :
    ∃ e, GetUserByID db userID = .error e := by
  unfold GetUserByID
  cases hf : db.First (fun u => u.ID == userID && u.Status == "active") with
  | error err =>
    cases err with
    | recordNotFound => exact ⟨_, rfl⟩
    | driver msg => exact ⟨_, rfl⟩
  | ok u =>
    exfalso
    obtain ⟨hmem, hdel, hcond⟩ := first_ok_inv _ _ _ hf
    simp only [Bool.and_eq_true, beq_iff_eq] at hcond
    rcases h u hmem hcond.1 with h1 | h1
    · exact h1 hdel
    · exact h1 hcond.2

/-- Claim C15: for every store, identifier and password and every outcome of
the password comparison, when the user `LoginUser` finds has a status other
than "active", `LoginUser` returns an error without having made a password
comparison, and `Login` answers with a body that carries no token (code 401,
or 400 when the request fails validation) and leaves the store as it was. -/
theorem loginUser_inactive (lib : Primitives) (cfg : Config)
    (compare : String → String → Bool) (clock : IssueClock) (now gormNow : Time) (db : DB)
    (username password : String) (ctx : Context) (u : User)
    (hfound : db.First (fun u => u.Username == username || u.Email == username) = .ok u)
    (hstatus : u.Status ≠ "active") :
    LoginUser compare db username password =
        { result := .error "用户账户已被禁用", comparisons := 0 } ∧
      ∃ b, Login lib cfg compare clock now gormNow db
          (some { Username := username, Password := password }) ctx =
            (.returned (ctx.JSON b), db) ∧
        b.token = none ∧ (b.code = 401 ∨ b.code = 400) := by
  have hlogin : LoginUser compare db username password =
      { result := .error "用户账户已被禁用", comparisons := 0 } := by
    simp [LoginUser, hfound, User.IsActive, hstatus]
  refine ⟨hlogin, ?_⟩
  cases hv : ValidateLoginRequest { Username := username, Password := password } with
  | some errs =>
    exact ⟨(⟨400, "输入数据验证失败", none, none, some errs⟩ : Body), by simp [Login, hv], rfl,
      Or.inr rfl⟩
  | none => exact ⟨plainBody 401 "用户名或密码错误", by simp [Login, hv, hlogin], rfl, Or.inl rfl⟩

theorem loginUser_inactive_witness :
    LoginUser (fun _ _ => true)
        { users := [sampleUser 1 "alice" "user" "inactive"], failing := false }
        "alice" "correct horse" =
        { result := .error "用户账户已被禁用", comparisons := 0 } ∧
      ∃ b, Login samplePrimitives (loadConfig (envOf [])) (fun _ _ => true)
          (IssueClock.uniform (1000 * Second)) (1000 * Second) (1000 * Second)
          { users := [sampleUser 1 "alice" "user" "inactive"], failing := false }
          (some { Username := "alice", Password := "correct horse" })
          (Context.request []) =
            (.returned ((Context.request []).JSON b),
              { users := [sampleUser 1 "alice" "user" "inactive"], failing := false }) ∧
        b.token = none ∧ (b.code = 401 ∨ b.code = 400) :=
  loginUser_inactive samplePrimitives (loadConfig (envOf [])) (fun _ _ => true)
    (IssueClock.uniform (1000 * Second)) (1000 * Second) (1000 * Second)
    { users := [sampleUser 1 "alice" "user" "inactive"], failing := false }
    "alice" "correct horse" (Context.request []) (sampleUser 1 "alice" "user" "inactive")
    (by rfl) (by decide)

theorem parseJWTWithoutValidation_claims (ts : TokenString) (c : JWTClaims)
    (h : ParseJWTWithoutValidation ts = .ok c) : ts.claims? = some c := by
  cases ts with
  | malformed => simp [ParseJWTWithoutValidation, ParseUnverified] at h
  | compact text alg claims sig =>
    cases alg with
    | none => simp [ParseJWTWithoutValidation, ParseUnverified] at h
    | some name =>
      cases hm : GetSigningMethod name with
      | none => simp [ParseJWTWithoutValidation, ParseUnverified, hm] at h
      | some m =>
        cases sig with
        | none => simp [ParseJWTWithoutValidation, ParseUnverified, hm] at h
        | some sg =>
          simp [ParseJWTWithoutValidation, ParseUnverified, hm] at h
          simp [TokenString.claims?, h]

theorem parseJWTWithoutValidation_not_panicked (ts : TokenString) :
    ParseJWTWithoutValidation ts ≠ .panicked := by
  intro h
  cases ts with
  | malformed => simp [ParseJWTWithoutValidation, ParseUnverified] at h
  | compact text alg claims sig =>
    cases alg with
    | none => simp [ParseJWTWithoutValidation, ParseUnverified] at h
    | some name =>
      cases hm : GetSigningMethod name with
      | none => simp [ParseJWTWithoutValidation, ParseUnverified, hm] at h
      | some m => cases sig <;> simp [ParseJWTWithoutValidation, ParseUnverified, hm] at h

/-- Claim C16: for every token string whose claims name a user id that has no
live, active record in the credential store (every record of that id is
soft-deleted or not active, or there is none), the `RefreshToken` controller
answers with a body of code 401 that carries no token, and
`RefreshAccessToken` returns an error, whatever the signature of the token
and the header it arrived in. -/
theorem refresh_rejects_missing_user (lib : Primitives) (cfg : Config)
    (decode : Bytes → TokenString) (clock : IssueClock) (now : Time) (db : DB) (ctx : Context)
    (ts : TokenString) (c : JWTClaims)
    (hts : decode (ctx.Authorization.drop bearerPrefix.length) = ts)
    (hc : ts.claims? = some c)
    (hmissing : ∀ u ∈ db.users, u.ID = c.UserID → u.DeletedAt ≠ none ∨ u.Status ≠ "active") :
    (∃ b, RefreshToken lib cfg decode clock db ctx = .returned (ctx.JSON b) ∧
      b.code = 401 ∧ b.token = none) ∧
    (RefreshAccessToken lib cfg now clock db ts).isError = true := by
  obtain ⟨e, he⟩ := getUserByID_error db c.UserID hmissing
  constructor
  · by_cases h1 : ctx.Authorization = []
    · exact ⟨plainBody 401 "缺少认证令牌", by simp [RefreshToken, h1], rfl, rfl⟩
    · by_cases h2 : ctx.Authorization.length ≤ bearerPrefix.length
      · exact ⟨plainBody 401 "认证令牌格式错误", by simp [RefreshToken, h1, h2], rfl, rfl⟩
      · cases hp : ParseJWTWithoutValidation ts with
        | error e2 =>
          exact ⟨plainBody 401 "无效的认证令牌", by simp [RefreshToken, h1, h2, hts, hp], rfl, rfl⟩
        | panicked => exact absurd hp (parseJWTWithoutValidation_not_panicked ts)
        | ok c2 =>
          have hc2 : c2 = c := by
            have := parseJWTWithoutValidation_claims ts c2 hp
            rw [hc] at this
            exact (Option.some.inj this).symm
          subst hc2
          exact ⟨plainBody 401 "用户不存在或已被禁用",
            by simp [RefreshToken, h1, h2, hts, hp, he], rfl, rfl⟩
  · cases hp : ParseWithClaims lib (keyFunc cfg) now ts with
    | error e2 => simp [RefreshAccessToken, hp, Result.isError]
    | panicked => exact absurd hp (parseWithClaims_not_panicked _ _ _ _)
    | ok token =>
      obtain ⟨text, name, sig, hts2, -, -, -, -, hvalid⟩ := parseWithClaims_ok_inv _ _ _ _ _ hp
      have hcl : token.Claims = c := by
        rw [hts2] at hc
        simpa [TokenString.claims?] using hc
      simp [RefreshAccessToken, hp, hvalid, hcl, he, Result.isError]

theorem refresh_rejects_missing_user_witness :
    (∃ b, RefreshToken samplePrimitives (loadConfig (envOf []))
        (decodeOf [(goBytes "t", signedWith samplePrimitives
          (loadConfig (envOf [])).JWT.Secret "h.c"
          (accessClaims (loadConfig (envOf [])) (IssueClock.uniform 0) 1 "alice" "user"))])
        (IssueClock.uniform (1000 * Second))
        { users := [sampleUser 1 "alice" "user" "inactive"], failing := false }
        (Context.request (goBytes "Bearer t")) =
          .returned ((Context.request (goBytes "Bearer t")).JSON b) ∧
      b.code = 401 ∧ b.token = none) ∧
    (RefreshAccessToken samplePrimitives (loadConfig (envOf [])) (1000 * Second)
      (IssueClock.uniform (1000 * Second))
      { users := [sampleUser 1 "alice" "user" "inactive"], failing := false }
      (signedWith samplePrimitives (loadConfig (envOf [])).JWT.Secret "h.c"
        (accessClaims (loadConfig (envOf [])) (IssueClock.uniform 0) 1 "alice" "user"))).isError
      = true :=
  refresh_rejects_missing_user samplePrimitives (loadConfig (envOf []))
    (decodeOf [(goBytes "t", signedWith samplePrimitives
      (loadConfig (envOf [])).JWT.Secret "h.c"
      (accessClaims (loadConfig (envOf [])) (IssueClock.uniform 0) 1 "alice" "user"))])
    (IssueClock.uniform (1000 * Second)) (1000 * Second)
    { users := [sampleUser 1 "alice" "user" "inactive"], failing := false }
    (Context.request (goBytes "Bearer t")) _
    (accessClaims (loadConfig (envOf [])) (IssueClock.uniform 0) 1 "alice" "user")
    (by decide) rfl (by decide)

/-- `RefreshJWT` issues, for whatever claims the unverified parse yields, the
token `GenerateJWT` issues for their user id, username and role. -/
theorem refreshJWT_eq_generateJWT (lib : Primitives) (cfg : Config) (clock : IssueClock)
    (ts : TokenString) (c : JWTClaims) (h : ParseJWTWithoutValidation ts = .ok c) :
    RefreshJWT lib cfg clock ts = GenerateJWT lib cfg clock c.UserID c.Username c.Role := by
  simp only [RefreshJWT, h, generateJWT_eq]

/-- Claim C17, at the failing input: a token string whose header names
HS256, whose claims name user 1 with role "admin" and carry no `exp`, and
whose signature segment decodes to bytes `sig` that nobody signed.
`ValidateJWT` rejects it whenever `sig` is not the tag of the configured
secret, as is the tag followed by one more byte under every hash function.
Yet `RefreshJWT`, which takes no credential store at all, turns it, for
every `sig`, into a fresh token that `ValidateJWT` accepts with user 1 and
role "admin". -/
theorem refreshJWT_forged (lib : Primitives) (sig : Bytes) :
    (sig ≠ hmacSum lib.sha256 64 (goBytes (loadConfig (envOf [])).JWT.Secret) (goBytes "h.c") →
      (ValidateJWT lib (loadConfig (envOf [])) (ValidateClock.uniform (1000 * Second))
        (.compact "h.c" (some "HS256") (claimsWithoutExpiry 1 "mallory" "admin")
          (some sig))).isError = true) ∧
    (ValidateJWT lib (loadConfig (envOf [])) (ValidateClock.uniform (1000 * Second))
      (.compact "h.c" (some "HS256") (claimsWithoutExpiry 1 "mallory" "admin")
        (some (hmacSum lib.sha256 64 (goBytes (loadConfig (envOf [])).JWT.Secret)
          (goBytes "h.c") ++ [0])))).isError = true ∧
    ∃ tok e c,
      RefreshJWT lib (loadConfig (envOf [])) (IssueClock.uniform (1000 * Second))
        (.compact "h.c" (some "HS256") (claimsWithoutExpiry 1 "mallory" "admin") (some sig)) =
          .ok (tok, e) ∧
      ValidateJWT lib (loadConfig (envOf [])) (ValidateClock.uniform (1000 * Second)) tok =
        .ok c ∧
      c.UserID = 1 ∧ c.Username = "mallory" ∧ c.Role = "admin" := by
  have hm : GetSigningMethod "HS256" = some .HS256 := by decide
  have hp : ParseJWTWithoutValidation
      (.compact "h.c" (some "HS256") (claimsWithoutExpiry 1 "mallory" "admin") (some sig)) =
      .ok (claimsWithoutExpiry 1 "mallory" "admin") := by
    simp [ParseJWTWithoutValidation, ParseUnverified, hm]
  have hrej : ∀ s : Bytes,
      s ≠ hmacSum lib.sha256 64 (goBytes (loadConfig (envOf [])).JWT.Secret) (goBytes "h.c") →
      (ValidateJWT lib (loadConfig (envOf [])) (ValidateClock.uniform (1000 * Second))
        (.compact "h.c" (some "HS256") (claimsWithoutExpiry 1 "mallory" "admin")
          (some s))).isError = true := by
    intro s hne
    simp [ValidateJWT, ParseWithClaims, ParseUnverified, hm, keyFunc, SigningMethod.isHMAC,
      Verify, hmacTag, hne, Result.isError]
  refine ⟨hrej sig, hrej _ ?_, ?_⟩
  · intro h
    have := congrArg List.length h
    simp at this
  · rw [refreshJWT_eq_generateJWT lib _ _ _ _ hp]
    refine ⟨_, _, accessClaims (loadConfig (envOf [])) (IssueClock.uniform (1000 * Second))
      1 "mallory" "admin", generateJWT_eq _ _ _ _ _ _, ?_, rfl, rfl, rfl⟩
    exact validateJWT_of_tag lib _ _ _ "HS256" .HS256 _ _ (87400 * Second) (1000 * Second)
      hm rfl rfl (by decide) (by decide) (by decide) (by decide) (by decide) (by decide)

/-- Claim C18: in the `RefreshToken` controller, when the presented token
string parses (unverified) to claims `c` and the store holds a live, active
record `u` under the user id of `c`, the answer has code 200 and carries a
new token whose claims have the id, the username and the role of `u`,
whatever username and role `c` carries. -/
theorem refreshToken_uses_live_record (lib : Primitives) (cfg : Config)
    (decode : Bytes → TokenString) (clock : IssueClock) (db : DB) (ctx : Context)
    (c : JWTClaims) (u : User)
    (hlen : bearerPrefix.length < ctx.Authorization.length)
    (hparse : ParseJWTWithoutValidation
      (decode (ctx.Authorization.drop bearerPrefix.length)) = .ok c)
    (hfound : db.First (fun u => u.ID == c.UserID && u.Status == "active") = .ok u) :
    ∃ tok e cl,
      RefreshToken lib cfg decode clock db ctx =
        .returned (ctx.JSON
          { code := 200, message := "令牌刷新成功", token := some (tok, e), user := none,
            errors := none }) ∧
      tok.claims? = some cl ∧
      cl.UserID = u.ID ∧ cl.Username = u.Username ∧ cl.Role = u.Role ∧
      u ∈ db.users ∧ u.DeletedAt = none ∧ u.ID = c.UserID ∧ u.Status = "active" := by
  obtain ⟨hmem, hdel, hcond⟩ := first_ok_inv _ _ _ hfound
  simp only [Bool.and_eq_true, beq_iff_eq] at hcond
  have h1 : ctx.Authorization ≠ [] := by
    intro h0
    rw [h0] at hlen
    exact absurd hlen (Nat.not_lt_zero _)
  have h2 : ¬ ctx.Authorization.length ≤ bearerPrefix.length := Nat.not_le.mpr hlen
  have huser : GetUserByID db c.UserID = .ok u.toUserInfo := by
    simp [GetUserByID, hfound]
  have hact : u.toUserInfo.IsActive = true := by
    simp [UserInfo.IsActive, User.toUserInfo, hcond.2]
  have hres : RefreshToken lib cfg decode clock db ctx =
      .returned (ctx.JSON
        { code := 200, message := "令牌刷新成功",
          token := some (.compact
            (lib.signingString "HS256" (accessClaims cfg clock u.ID u.Username u.Role))
            (some "HS256") (accessClaims cfg clock u.ID u.Username u.Role)
            (some (hmacSum lib.sha256 64 (goBytes cfg.JWT.Secret)
              (goBytes (lib.signingString "HS256"
                (accessClaims cfg clock u.ID u.Username u.Role))))),
            Add clock.expiry (secondsDuration cfg.JWT.ExpirationTime)),
          user := none, errors := none }) := by
    simp only [RefreshToken, List.isEmpty_iff, h1, h2, hparse, huser, hact, if_false,
      Bool.not_true, generateJWT_eq]
    rfl
  exact ⟨_, _, accessClaims cfg clock u.ID u.Username u.Role, hres, rfl, rfl, rfl, rfl, hmem,
    hdel, hcond.1, hcond.2⟩

theorem refreshToken_uses_live_record_witness :
    ∃ tok e cl,
      RefreshToken samplePrimitives (loadConfig (envOf []))
          (decodeOf [(goBytes "t",
            .compact "h.c" (some "HS256") (claimsWithoutExpiry 1 "mallory" "admin")
              (some [1, 2, 3]))])
          (IssueClock.uniform (1000 * Second))
          { users := [sampleUser 1 "alice" "user" "active"], failing := false }
          (Context.request (goBytes "Bearer t")) =
        .returned ((Context.request (goBytes "Bearer t")).JSON
          { code := 200, message := "令牌刷新成功", token := some (tok, e), user := none,
            errors := none }) ∧
      tok.claims? = some cl ∧
      cl.UserID = (sampleUser 1 "alice" "user" "active").ID ∧
      cl.Username = (sampleUser 1 "alice" "user" "active").Username ∧
      cl.Role = (sampleUser 1 "alice" "user" "active").Role ∧
      sampleUser 1 "alice" "user" "active" ∈
        ({ users := [sampleUser 1 "alice" "user" "active"], failing := false } : DB).users ∧
      (sampleUser 1 "alice" "user" "active").DeletedAt = none ∧
      (sampleUser 1 "alice" "user" "active").ID =
        (claimsWithoutExpiry 1 "mallory" "admin").UserID ∧
      (sampleUser 1 "alice" "user" "active").Status = "active" :=
  refreshToken_uses_live_record samplePrimitives (loadConfig (envOf []))
    (decodeOf [(goBytes "t",
      .compact "h.c" (some "HS256") (claimsWithoutExpiry 1 "mallory" "admin")
        (some [1, 2, 3]))])
    (IssueClock.uniform (1000 * Second))
    { users := [sampleUser 1 "alice" "user" "active"], failing := false }
    (Context.request (goBytes "Bearer t")) (claimsWithoutExpiry 1 "mallory" "admin")
    (sampleUser 1 "alice" "user" "active") (by decide) (by decide) (by rfl)

/-! ## Logout and configuration: the claims of the specification -/

/-- Claim C19: for every state of the process and every token,
`InvalidateToken` and `DestroySession` return no error and the state they
leave is the state they found, and so does `Logout`; hence `ValidateJWT`,
read at the same clock, gives the same result on every token string under
the configuration of the state before and of the state after. -/
theorem invalidateToken_changes_nothing (lib : Primitives) (env : Env) (state : AppState)
    (token ts : TokenString) (clock : ValidateClock) (ctx : Context) :
    InvalidateToken state token = (none, state) ∧
    DestroySession state token = (none, state) ∧
    (Logout state ctx).2 = state ∧
    ValidateJWT lib (currentConfig (InvalidateToken state token).2 env) clock ts =
      ValidateJWT lib (currentConfig state env) clock ts ∧
    ValidateJWT lib (currentConfig (DestroySession state token).2 env) clock ts =
      ValidateJWT lib (currentConfig state env) clock ts ∧
    ValidateJWT lib (currentConfig (Logout state ctx).2 env) clock ts =
      ValidateJWT lib (currentConfig state env) clock ts :=
  ⟨rfl, rfl, rfl, rfl, rfl, rfl⟩

/-- For every environment the loaded configuration has a non-empty server
port and a non-empty JWT secret. -/
theorem getConfig_port_secret (env : Env) :
    (GetConfig none env).1.Server.Port ≠ "" ∧ (GetConfig none env).1.JWT.Secret ≠ "" := by
  have key : ∀ k d : String, d ≠ "" → getEnv env k d ≠ "" := by
    intro k d hd
    unfold getEnv
    split_ifs with h
    · exact h
    · exact hd
  exact ⟨key _ _ (by decide), key _ _ (by decide)⟩

/-- Claim C20, at the failing input: in the environment that sets
JWT_EXPIRATION_TIME to "0", the configuration `GetConfig` loads has
`JWT.ExpirationTime` 0, which is not strictly greater than 0. -/
theorem getConfig_zero_expirationTime :
    (GetConfig none (envOf [("JWT_EXPIRATION_TIME", "0")])).1.JWT.ExpirationTime = 0 ∧
      ¬ (0 < (GetConfig none (envOf [("JWT_EXPIRATION_TIME", "0")])).1.JWT.ExpirationTime) := by
  constructor <;> decide


/-! ## Configuration and header: the claims of the specification -/

/-- Claim C21: `loadConfig` sets `JWT.ExpirationTime` to the integer
`strconv.Atoi` reads from JWT_EXPIRATION_TIME, and to 86400 when the variable
is unset or empty or `Atoi` rejects it; once `GetConfig` has loaded the
configuration, a later call returns the same configuration and the same
cache in every environment. -/
theorem loadConfig_expirationTime (env env2 : Env) :
    (loadConfig env).JWT.ExpirationTime = (Atoi (env "JWT_EXPIRATION_TIME")).getD 86400 ∧
    (env "JWT_EXPIRATION_TIME" = "" → (loadConfig env).JWT.ExpirationTime = 86400) ∧
    (Atoi (env "JWT_EXPIRATION_TIME") = none → (loadConfig env).JWT.ExpirationTime = 86400) ∧
    (∀ n, Atoi (env "JWT_EXPIRATION_TIME") = some n →
      (loadConfig env).JWT.ExpirationTime = n) ∧
    GetConfig (GetConfig none env).2 env2 = (loadConfig env, some (loadConfig env)) ∧
    (GetConfig (GetConfig none env).2 env2).1 = (GetConfig none env).1 := by
  have hempty : Atoi "" = none := by decide
  have key : (loadConfig env).JWT.ExpirationTime =
      (Atoi (env "JWT_EXPIRATION_TIME")).getD 86400 := by
    show getEnvAsInt env "JWT_EXPIRATION_TIME" (24 * 60 * 60) = _
    unfold getEnvAsInt
    by_cases h : env "JWT_EXPIRATION_TIME" = ""
    · simp [h, hempty]
    · rw [if_pos h]
      cases Atoi (env "JWT_EXPIRATION_TIME") <;> simp
  refine ⟨key, ?_, ?_, ?_, rfl, rfl⟩
  · intro h
    rw [key, h, hempty]
    rfl
  · intro h
    rw [key, h]
    rfl
  · intro n h
    rw [key, h]
    rfl

theorem take_eq_iff_isPrefixOf (p l : Bytes) :
    (l.take p.length != p) = !p.isPrefixOf l := by
  have h1 : p.isPrefixOf l = true ↔ p <+: l := List.isPrefixOf_iff_prefix
  have h2 : p <+: l ↔ p = l.take p.length := List.prefix_iff_eq_take
  by_cases h : p.isPrefixOf l = true
  · have := h2.mp (h1.mp h)
    simp [h, ← this]
  · have hne : l.take p.length ≠ p := fun e => h (h1.mpr (h2.mpr e.symm))
    simp [h, hne]

/-- Claim C22: `GetJWTFromHeader` succeeds exactly when the header starts
with "Bearer " and is strictly longer than it, and then returns the rest of
the header, so that the header is "Bearer " followed by the result; on
"Bearer " followed by a non-empty t it returns t; the empty header, a header
no longer than the prefix and a header that does not start with the prefix
each yield an error. -/
theorem getJWTFromHeader_iff (h t : Bytes) :
    ((∃ r, GetJWTFromHeader h = .ok r) ↔
      bearerPrefix.isPrefixOf h = true ∧ bearerPrefix.length < h.length) ∧
    (∀ r, GetJWTFromHeader h = .ok r →
      r = h.drop bearerPrefix.length ∧ h = bearerPrefix ++ r) ∧
    (t ≠ [] → GetJWTFromHeader (bearerPrefix ++ t) = .ok t) ∧
    (GetJWTFromHeader []).isError = true ∧
    (h.length ≤ bearerPrefix.length → (GetJWTFromHeader h).isError = true) ∧
    (bearerPrefix.isPrefixOf h = false → (GetJWTFromHeader h).isError = true) := by
  have hdef : ∀ l : Bytes, GetJWTFromHeader l =
      if l = [] then .error "缺少Authorization头"
      else if l.length ≤ bearerPrefix.length then .error "Authorization头格式错误"
      else if bearerPrefix.isPrefixOf l = true then .ok (l.drop bearerPrefix.length)
      else .error "Authorization头必须以Bearer开头" := by
    intro l
    unfold GetJWTFromHeader
    rw [take_eq_iff_isPrefixOf]
    by_cases h1 : l = []
    · simp [h1]
    · by_cases h2 : l.length ≤ bearerPrefix.length
      · simp [h1, h2]
      · by_cases h3 : bearerPrefix.isPrefixOf l = true <;> simp [h1, h2, h3]
  have hok : ∀ l r : Bytes, GetJWTFromHeader l = .ok r →
      bearerPrefix.isPrefixOf l = true ∧ bearerPrefix.length < l.length ∧
        r = l.drop bearerPrefix.length := by
    intro l r hr
    rw [hdef] at hr
    split_ifs at hr with h1 h2 h3
    exact ⟨h3, Nat.lt_of_not_le h2, (Result.ok.inj hr).symm⟩
  refine ⟨⟨?_, ?_⟩, ?_, ?_, ?_, ?_, ?_⟩
  · rintro ⟨r, hr⟩
    exact ⟨(hok h r hr).1, (hok h r hr).2.1⟩
  · rintro ⟨h3, h2⟩
    have h1 : h ≠ [] := by
      intro e
      rw [e] at h2
      exact absurd h2 (Nat.not_lt_zero _)
    exact ⟨_, by rw [hdef, if_neg h1, if_neg (Nat.not_le.mpr h2), if_pos h3]⟩
  · intro r hr
    obtain ⟨h3, -, hd⟩ := hok h r hr
    refine ⟨hd, ?_⟩
    have hp : bearerPrefix <+: h := List.isPrefixOf_iff_prefix.mp h3
    obtain ⟨s, hs⟩ := hp
    rw [hd, ← hs, List.drop_left]
  · intro ht
    have h1 : bearerPrefix ++ t ≠ [] := by
      intro e
      exact ht (List.append_eq_nil.mp e).2
    have h2 : ¬ (bearerPrefix ++ t).length ≤ bearerPrefix.length := by
      have : 0 < t.length := List.length_pos.mpr ht
      rw [List.length_append]
      omega
    have h3 : bearerPrefix.isPrefixOf (bearerPrefix ++ t) = true :=
      List.isPrefixOf_iff_prefix.mpr (List.prefix_append _ _)
    rw [hdef, if_neg h1, if_neg h2, if_pos h3, List.drop_left]
  · rfl
  · intro hlen
    rw [hdef]
    split_ifs <;> rfl
  · intro hp
    rw [hdef]
    split_ifs with h1 h2 h3
    · rfl
    · rfl
    · rw [hp] at h3
      exact absurd h3 (by decide)
    · rfl


/-! ## Registration and update: the claims of the specification -/

/-- Claim C27: for every user that `UpdateUser` finds (the live row of that
id) and every update request, `UpdateUser` succeeds and writes a row with
the same ID, Username, Email and Password, in which each of FirstName,
LastName, Avatar, Role and Status is the value of the request when that
value is non-empty and the old value when it is the empty string. -/
theorem updateUser_frame (db : DB) (gormNow : Time) (userID : Nat) (req : UpdateUserRequest)
    (u : User) (hfound : db.First (fun r => r.ID == userID) = .ok u) :
    ∃ w, Services.UpdateUser db gormNow userID req =
        (.ok w.toUserInfo,
          { db with
            users := db.users.map (fun r =>
              if r.ID == userID && r.DeletedAt.isNone then w else r) }) ∧
      w.ID = u.ID ∧ w.Username = u.Username ∧ w.Email = u.Email ∧ w.Password = u.Password ∧
      w.FirstName = (if req.FirstName = "" then u.FirstName else req.FirstName) ∧
      w.LastName = (if req.LastName = "" then u.LastName else req.LastName) ∧
      w.Avatar = (if req.Avatar = "" then u.Avatar else req.Avatar) ∧
      w.Role = (if req.Role = "" then u.Role else req.Role) ∧
      w.Status = (if req.Status = "" then u.Status else req.Status) := by
  have hf : db.failing = false := by
    cases h : db.failing with
    | false => rfl
    | true => simp [DB.First, h] at hfound
  have hid : u.ID = userID := by
    have := (first_ok_inv _ _ _ hfound).2.2
    simpa using this
  refine ⟨{ u with
      FirstName := if req.FirstName = "" then u.FirstName else req.FirstName
      LastName := if req.LastName = "" then u.LastName else req.LastName
      Avatar := if req.Avatar = "" then u.Avatar else req.Avatar
      Role := if req.Role = "" then u.Role else req.Role
      Status := if req.Status = "" then u.Status else req.Status
      UpdatedAt := gormNow }, ?_, rfl, rfl, rfl, rfl, rfl, rfl, rfl, rfl, rfl⟩
  simp only [Services.UpdateUser, hfound, DB.Save, hf]
  by_cases h1 : req.FirstName = "" <;> by_cases h2 : req.LastName = "" <;>
    by_cases h3 : req.Avatar = "" <;> by_cases h4 : req.Role = "" <;>
    by_cases h5 : req.Status = "" <;>
    simp [h1, h2, h3, h4, h5, hid]

theorem updateUser_frame_witness :
    ∃ w, Services.UpdateUser sampleStore 5 2
        { FirstName := "Bob", LastName := "", Avatar := "", Role := "", Status := "inactive" } =
        (.ok w.toUserInfo,
          { sampleStore with
            users := sampleStore.users.map (fun r =>
              if r.ID == 2 && r.DeletedAt.isNone then w else r) }) ∧
      w.ID = (sampleUser 2 "bob" "user" "active").ID ∧
      w.Username = (sampleUser 2 "bob" "user" "active").Username ∧
      w.Email = (sampleUser 2 "bob" "user" "active").Email ∧
      w.Password = (sampleUser 2 "bob" "user" "active").Password ∧
      w.FirstName = (if "Bob" = "" then (sampleUser 2 "bob" "user" "active").FirstName
        else "Bob") ∧
      w.LastName = (if "" = "" then (sampleUser 2 "bob" "user" "active").LastName else "") ∧
      w.Avatar = (if "" = "" then (sampleUser 2 "bob" "user" "active").Avatar else "") ∧
      w.Role = (if "" = "" then (sampleUser 2 "bob" "user" "active").Role else "") ∧
      w.Status = (if "inactive" = "" then (sampleUser 2 "bob" "user" "active").Status
        else "inactive") :=
  updateUser_frame sampleStore 5 2
    { FirstName := "Bob", LastName := "", Avatar := "", Role := "", Status := "inactive" }
    (sampleUser 2 "bob" "user" "active") (by rfl)


/-! ## Roles, the user list and the header: evaluations -/

/-- The sample token passes `ValidateJWT` at second 1000 under the default
configuration. -/
theorem sampleToken_valid (lib : Primitives) (role : String) :
    ValidateJWT lib (loadConfig (envOf [])) (ValidateClock.uniform (1000 * Second))
      (sampleToken lib role) =
        .ok (accessClaims (loadConfig (envOf [])) (IssueClock.uniform (1000 * Second)) 2 "bob"
          role) := by
  have hm : GetSigningMethod "HS256" = some .HS256 := by decide
  exact validateJWT_of_tag lib _ _ _ "HS256" .HS256 _ _ (87400 * Second) (1000 * Second)
    hm rfl rfl (by rfl) (by rfl) (by decide) (by decide) (by decide) (by decide)

/-- Claim C24, at the failing input: the store of alice and bob, whose roles
and statuses are all of the enumerations, and the update request with role
"superuser" and status "banned", sent by bob to `UpdateProfile` and sent for
user 2 to `UpdateUser` of `controllers`. Both controllers answer with code
200 and leave a store in which user 2 has role "superuser" and status
"banned". -/
theorem updateControllers_break_rolesValid :
    rolesValid sampleStore = true ∧
    (Controllers.UpdateProfile sampleStore 5
      (some { FirstName := "", LastName := "", Avatar := "", Role := "superuser",
              Status := "banned" })
      (Context.authenticated 2 "bob" "user")).1 =
      .returned ((Context.authenticated 2 "bob" "user").JSON
        { code := 200, message := "用户资料更新成功", token := none,
          user := some
            ({ sampleUser 2 "bob" "superuser" "banned" with UpdatedAt := 5 }).toUserInfo,
          errors := none }) ∧
    ((Controllers.UpdateProfile sampleStore 5
      (some { FirstName := "", LastName := "", Avatar := "", Role := "superuser",
              Status := "banned" })
      (Context.authenticated 2 "bob" "user")).2.users.map
        (fun u => (u.ID, u.Role, u.Status))) =
      [(1, "admin", "active"), (2, "superuser", "banned")] ∧
    rolesValid (Controllers.UpdateProfile sampleStore 5
      (some { FirstName := "", LastName := "", Avatar := "", Role := "superuser",
              Status := "banned" })
      (Context.authenticated 2 "bob" "user")).2 = false ∧
    ((Controllers.UpdateUser sampleStore 5 (some 2)
      (some { FirstName := "", LastName := "", Avatar := "", Role := "superuser",
              Status := "banned" })
      (Context.authenticated 1 "alice" "admin")).2.users.map
        (fun u => (u.ID, u.Role, u.Status))) =
      [(1, "admin", "active"), (2, "superuser", "banned")] ∧
    rolesValid (Controllers.UpdateUser sampleStore 5 (some 2)
      (some { FirstName := "", LastName := "", Avatar := "", Role := "superuser",
              Status := "banned" })
      (Context.authenticated 1 "alice" "admin")).2 = false := by
  refine ⟨by decide, by rfl, by decide, by decide, by decide, by decide⟩

/-- Claim C25, at the failing input: bob, authenticated with role "user",
sends `UpdateProfile` a body with role "admin" and status "inactive". The
controller answers with code 200, and bob's stored role changes from "user"
to "admin" and his stored status from "active" to "inactive". -/
theorem updateProfile_changes_own_role :
    (Context.authenticated 2 "bob" "user").Get "role" = some (.str "user") ∧
    sampleStore.users.map (fun u => (u.ID, u.Role, u.Status)) =
      [(1, "admin", "active"), (2, "user", "active")] ∧
    (Controllers.UpdateProfile sampleStore 5
      (some { FirstName := "", LastName := "", Avatar := "", Role := "admin",
              Status := "inactive" })
      (Context.authenticated 2 "bob" "user")).1 =
      .returned ((Context.authenticated 2 "bob" "user").JSON
        { code := 200, message := "用户资料更新成功", token := none,
          user := some
            ({ sampleUser 2 "bob" "admin" "inactive" with UpdatedAt := 5 }).toUserInfo,
          errors := none }) ∧
    ((Controllers.UpdateProfile sampleStore 5
      (some { FirstName := "", LastName := "", Avatar := "", Role := "admin",
              Status := "inactive" })
      (Context.authenticated 2 "bob" "user")).2.users.map
        (fun u => (u.ID, u.Role, u.Status))) =
      [(1, "admin", "active"), (2, "admin", "inactive")] := by
  refine ⟨by decide, by decide, by rfl, by decide⟩

/-- Claim C26, at the failing input: GET /api/users with the header
"Bearer t", where t is a valid token of bob with role "user". The chain of
the route runs `GetUsers`, which writes the body with code 200 and the
message of the user list; `RequireAdmin`, which the route does not contain,
would have answered the same authenticated context with 403, whenever its
getter reads the role "user" that the context carries. -/
theorem usersRoute_admits_user (lib : Primitives) :
    ∃ ctx,
      runChain
        (usersRoute lib (loadConfig (envOf [])) (decodeOf [(goBytes "t", sampleToken lib "user")])
          (ValidateClock.uniform (1000 * Second)) sampleStore "" "")
        (Context.request (goBytes "Bearer t")) = .returned ctx ∧
      ctx.Get "role" = some (.str "user") ∧
      ctx.written = [plainBody 200 "获取用户列表成功"] ∧
      ctx.statusCode = 200 ∧
      Controllers.GetUsers sampleStore "" ""
        ((((((Context.request (goBytes "Bearer t")).Next).Set "user_id" (.uint 2)).Set "username"
          (.str "bob")).Set "role" (.str "user")).Next) = .returned ctx ∧
      ∀ getString : Context → String → String × Bool,
        getString
          ((((((Context.request (goBytes "Bearer t")).Next).Set "user_id" (.uint 2)).Set
            "username" (.str "bob")).Set "role" (.str "user")).Next) "role" = ("user", true) →
        ∃ ctx2, RequireAdmin getString
          ((((((Context.request (goBytes "Bearer t")).Next).Set "user_id" (.uint 2)).Set
            "username" (.str "bob")).Set "role" (.str "user")).Next) = .returned ctx2 ∧
          ctx2.statusCode = 403 := by
  have hd : decodeOf [(goBytes "t", sampleToken lib "user")]
      (List.drop bearerPrefix.length (Context.request (goBytes "Bearer t")).Next.Authorization) =
      sampleToken lib "user" := by
    have h1 : List.drop bearerPrefix.length
        (Context.request (goBytes "Bearer t")).Next.Authorization = goBytes "t" := by decide
    rw [h1]
    simp [decodeOf]
  have hauth : JWTAuthentication lib (loadConfig (envOf []))
      (decodeOf [(goBytes "t", sampleToken lib "user")]) (ValidateClock.uniform (1000 * Second))
      (Context.request (goBytes "Bearer t")).Next =
      .returned ((((((Context.request (goBytes "Bearer t")).Next).Set "user_id"
        (.uint 2)).Set "username" (.str "bob")).Set "role" (.str "user")).Next) :=
    (jwtAuthentication_bearer lib (loadConfig (envOf []))
      (decodeOf [(goBytes "t", sampleToken lib "user")]) (ValidateClock.uniform (1000 * Second))
      (Context.request (goBytes "Bearer t")).Next (by decide)).1 _
      (by rw [hd]; exact sampleToken_valid lib "user")
  have hcors : CORS "GET" (Context.request (goBytes "Bearer t")) =
      .returned (Context.request (goBytes "Bearer t")).Next := by
    simp [CORS]
  have hget : Controllers.GetUsers sampleStore "" ""
      ((((((Context.request (goBytes "Bearer t")).Next).Set "user_id" (.uint 2)).Set "username"
          (.str "bob")).Set "role" (.str "user")).Next) =
      .returned (((((((Context.request (goBytes "Bearer t")).Next).Set "user_id"
        (.uint 2)).Set "username" (.str "bob")).Set "role" (.str "user")).Next).JSON
          (plainBody 200 "获取用户列表成功")) := by rfl
  refine ⟨_, ?_, ?_, ?_, ?_, hget, ?_⟩
  · simp only [runChain, usersRoute, hcors, hauth, hget]
    rw [if_pos (by decide), if_pos (by decide), if_neg (by decide)]
  · decide
  · decide
  · decide
  · intro getString hg
    refine ⟨((((((((Context.request (goBytes "Bearer t")).Next).Set "user_id" (.uint 2)).Set
      "username" (.str "bob")).Set "role" (.str "user")).Next).JSON
        (plainBody 403 "权限不足")).StatusCode 403), ?_, rfl⟩
    simp [RequireAdmin, RequireRole, hg]


/-! ## Pages, sanitising and the header of the controllers -/

/-- The page count of the three functions, for a total and a page size that
the machine integers hold: the quotient rounded up. -/
theorem totalPageOf_ceil (total pageSize : Int) (ht : 0 ≤ total) (htmax : total ≤ maxInt64)
    (hp : 1 ≤ pageSize) :
    ∃ n, totalPageOf total pageSize = some n ∧ 0 ≤ n ∧
      total ≤ n * pageSize ∧ (n - 1) * pageSize < total := by
  have hp0 : pageSize ≠ 0 := by omega
  have hq : Int.tdiv total pageSize = total / pageSize :=
    Int.tdiv_eq_ediv ht (by omega)
  have hr : Int.tmod total pageSize = total % pageSize :=
    Int.tmod_eq_emod ht (by omega)
  have hdm : pageSize * (total / pageSize) + total % pageSize = total :=
    Int.ediv_add_emod total pageSize
  have hr0 : 0 ≤ total % pageSize := Int.emod_nonneg _ hp0
  have hr1 : total % pageSize < pageSize := Int.emod_lt_of_pos _ (by omega)
  have hq0 : 0 ≤ total / pageSize := Int.ediv_nonneg ht (by omega)
  have hqle : total / pageSize ≤ pageSize * (total / pageSize) :=
    le_mul_of_one_le_left hq0 hp
  have hmul : pageSize * (total / pageSize) = total / pageSize * pageSize := mul_comm _ _
  have hw : wrapInt64 (total / pageSize) = total / pageSize := by
    unfold wrapInt64
    unfold maxInt64 at htmax
    omega
  by_cases hpos : total % pageSize > 0
  · have hw1 : wrapInt64 (total / pageSize + 1) = total / pageSize + 1 := by
      unfold wrapInt64
      unfold maxInt64 at htmax
      omega
    refine ⟨total / pageSize + 1, ?_, by omega, ?_, ?_⟩
    · simp [totalPageOf, goDiv, goMod, hp0, hq, hr, hw, hpos, hw1]
    · rw [add_mul]
      omega
    · rw [add_sub_cancel_right]
      omega
  · have hzero : total % pageSize = 0 := by omega
    refine ⟨total / pageSize, ?_, hq0, ?_, ?_⟩
    · simp [totalPageOf, goDiv, goMod, hp0, hq, hr, hw, hzero]
    · omega
    · rw [sub_mul]
      omega

/-- Claim C28, the counterexample: for page 4611686018427387905, page size 2
and total 0, all of which an `int` holds, `Pagination` returns the offset
-9223372036854775808, which is not (page - 1) * pageSize. -/
theorem pagination_offset_overflows :
    (0 : Int) ≤ 0 ∧ (1 : Int) ≤ 2 ∧ (4611686018427387905 : Int) ≤ maxInt64 ∧
    Pagination 4611686018427387905 2 0 = some (-9223372036854775808, 0) ∧
    (-9223372036854775808 : Int) ≠ (4611686018427387905 - 1) * 2 := by
  refine ⟨by decide, by decide, by decide, by decide, by decide⟩

/-- Claim C28, amended: for every total from 0 to the largest `int` and every
page size of at least 1, the page count n of `Pagination`, `NewPageResponse`
and `ResponseUtil.PageResponse` is the ceiling of total / pageSize: the same
n in all three, with (n - 1) * pageSize < total ≤ n * pageSize, and n = 0
when total = 0. `Pagination` returns the offset (page - 1) * pageSize, with
1 for a page below 1, whenever that product is at most the largest `int`;
with a page size below 1 it works with 10. The page size of `GetUsers` of
`controllers` lies between 1 and 100 and its page is at least 1, so it
never panics. -/
theorem pagination_pageCount (page pageSize total code current : Int) (message : String)
    (db : DB) (pageParam pageSizeParam : String)
    (ht : 0 ≤ total) (htmax : total ≤ maxInt64) (hp : 1 ≤ pageSize)
    (hfit : ((if page < 1 then 1 else page) - 1) * pageSize ≤ maxInt64) :
    (∃ n : Int, ⌈(total : ℚ) / (pageSize : ℚ)⌉ = n ∧
      total ≤ n * pageSize ∧ (n - 1) * pageSize < total ∧ (total = 0 → n = 0) ∧
      Pagination page pageSize total =
        some (((if page < 1 then 1 else page) - 1) * pageSize, n) ∧
      NewPageResponse code message current pageSize total =
        some { Code := code, Message := message,
               Page := { Current := current, PageSize := pageSize, Total := total,
                         TotalPage := n } } ∧
      ResponseUtil.PageResponse current pageSize total =
        some { Current := current, PageSize := pageSize, Total := total, TotalPage := n }) ∧
    (∀ small : Int, small < 1 →
      Pagination page small total = Pagination page 10 total) ∧
    1 ≤ (pageArguments pageParam pageSizeParam).1 ∧
    1 ≤ (pageArguments pageParam pageSizeParam).2 ∧
    (pageArguments pageParam pageSizeParam).2 ≤ 100 ∧
    Controllers.GetUsersPage db pageParam pageSizeParam ≠ .panicked := by
  obtain ⟨n, hn, hn0, hle, hlt⟩ := totalPageOf_ceil total pageSize ht htmax hp
  have hargs : 1 ≤ (pageArguments pageParam pageSizeParam).1 ∧
      1 ≤ (pageArguments pageParam pageSizeParam).2 ∧
      (pageArguments pageParam pageSizeParam).2 ≤ 100 := by
    unfold pageArguments
    simp only []
    refine ⟨?_, ?_, ?_⟩
    · split_ifs <;> omega
    · split_ifs <;> omega
    · split_ifs <;> omega
  refine ⟨⟨n, ?_, hle, hlt, ?_, ?_, ?_, ?_⟩, ?_, hargs.1, hargs.2.1, hargs.2.2, ?_⟩
  · have hpq : (0 : ℚ) < (pageSize : ℚ) := by exact_mod_cast (by omega : (0 : Int) < pageSize)
    have h1 : ((total : ℚ)) ≤ (n : ℚ) * (pageSize : ℚ) := by exact_mod_cast hle
    have h2 : ((n : ℚ) - 1) * (pageSize : ℚ) < (total : ℚ) := by exact_mod_cast hlt
    rw [Int.ceil_eq_iff]
    constructor
    · rw [lt_div_iff₀ hpq]
      exact h2
    · rw [div_le_iff₀ hpq]
      exact h1
  · intro h0
    rw [h0] at hlt
    by_contra hne
    have hn1 : 0 ≤ n - 1 := by omega
    have hnn : 0 ≤ (n - 1) * pageSize := mul_nonneg hn1 (by omega)
    omega
  · have hps : ¬ pageSize < 1 := by omega
    have hpage0 : 0 ≤ (if page < 1 then 1 else page) - 1 := by split_ifs <;> omega
    have hle1 : (if page < 1 then 1 else page) - 1 ≤
        ((if page < 1 then 1 else page) - 1) * pageSize :=
      le_mul_of_one_le_right hpage0 hp
    have hprod0 : 0 ≤ ((if page < 1 then 1 else page) - 1) * pageSize :=
      mul_nonneg hpage0 (by omega)
    have hw1 : wrapInt64 ((if page < 1 then 1 else page) - 1) =
        (if page < 1 then 1 else page) - 1 := by
      unfold wrapInt64
      unfold maxInt64 at hfit
      omega
    have hw2 : wrapInt64 (((if page < 1 then 1 else page) - 1) * pageSize) =
        ((if page < 1 then 1 else page) - 1) * pageSize := by
      unfold wrapInt64
      unfold maxInt64 at hfit
      omega
    simp only [Pagination, hps, if_false, hw1, hw2, hn]
  · simp only [NewPageResponse, hn]
  · simp only [ResponseUtil.PageResponse, hn]
  · intro small hs
    simp [Pagination, hs]
  · unfold Controllers.GetUsersPage
    simp only []
    cases hsvc : Services.GetUsers db (pageArguments pageParam pageSizeParam).1
        (pageArguments pageParam pageSizeParam).2 with
    | error e => simp
    | panicked =>
      unfold Services.GetUsers at hsvc
      split_ifs at hsvc
    | ok t =>
      unfold Services.GetUsers at hsvc
      split_ifs at hsvc
      injection hsvc with hsvc
      have hz : totalPageOf t (pageArguments pageParam pageSizeParam).2 ≠ none := by
        have hne : (pageArguments pageParam pageSizeParam).2 ≠ 0 := by omega
        simp [totalPageOf, goDiv, goMod, hne]
      cases hval : totalPageOf t (pageArguments pageParam pageSizeParam).2 with
      | none => exact absurd hval hz
      | some v => simp [NewPageResponse, hval]

theorem pagination_pageCount_witness :
    (∃ n : Int, ⌈((25 : Int) : ℚ) / ((10 : Int) : ℚ)⌉ = n ∧
      (25 : Int) ≤ n * 10 ∧ (n - 1) * 10 < 25 ∧ ((25 : Int) = 0 → n = 0) ∧
      Pagination 3 10 25 = some (((if (3 : Int) < 1 then 1 else 3) - 1) * 10, n) ∧
      NewPageResponse 200 "ok" 3 10 25 =
        some { Code := 200, Message := "ok",
               Page := { Current := 3, PageSize := 10, Total := 25, TotalPage := n } } ∧
      ResponseUtil.PageResponse 3 10 25 =
        some { Current := 3, PageSize := 10, Total := 25, TotalPage := n }) ∧
    (∀ small : Int, small < 1 → Pagination 3 small 25 = Pagination 3 10 25) ∧
    1 ≤ (pageArguments "0" "500").1 ∧
    1 ≤ (pageArguments "0" "500").2 ∧
    (pageArguments "0" "500").2 ≤ 100 ∧
    Controllers.GetUsersPage sampleStore "0" "500" ≠ .panicked :=
  pagination_pageCount 3 10 25 200 3 "ok" sampleStore "0" "500" (by decide) (by decide)
    (by decide) (by decide)

/-- Claim C29, at the failing inputs: `SanitizeSQL` turns the four
characters minus, slash, star, minus into "--", and the four characters star,
star, slash, slash into "*/", so its output can contain "--" and "*/". -/
theorem sanitizeSQL_leaves_comment_marks :
    SanitizeSQL "-/*-" = "--" ∧ containsSub (SanitizeSQL "-/*-") "--" = true ∧
    SanitizeSQL "**//" = "*/" ∧ containsSub (SanitizeSQL "**//") "*/" = true ∧
    SanitizeSQL "a;b--c/*d*/e'f" = "abcde''f" := by
  refine ⟨by decide, by decide, by decide, by decide, by decide⟩

/-- Claim C30, at the failing input: the header "Digest t", which does not
start with "Bearer ", where t is a valid token of bob. `GetJWTFromHeader`
and `JWTAuthentication` reject the header, yet `ValidateToken` parses its
last byte as the token and answers with code 200, and `RefreshToken` answers
with code 200 and a new token. -/
theorem controllers_accept_other_prefix (lib : Primitives) :
    bearerPrefix.isPrefixOf (goBytes "Digest t") = false ∧
    (GetJWTFromHeader (goBytes "Digest t")).isError = true ∧
    JWTAuthentication lib (loadConfig (envOf [])) (decodeOf [(goBytes "t", sampleToken lib "user")])
      (ValidateClock.uniform (1000 * Second)) (Context.request (goBytes "Digest t")) =
      .returned (((Context.request (goBytes "Digest t")).JSON
        (plainBody 401 "认证令牌格式错误")).StatusCode 401) ∧
    Controllers.ValidateToken lib (loadConfig (envOf []))
      (decodeOf [(goBytes "t", sampleToken lib "user")])
      (ValidateClock.uniform (1000 * Second)) sampleStore
      (Context.request (goBytes "Digest t")) =
      .returned ((Context.request (goBytes "Digest t")).JSON (plainBody 200 "令牌验证成功")) ∧
    ∃ tok e,
      RefreshToken lib (loadConfig (envOf [])) (decodeOf [(goBytes "t", sampleToken lib "user")])
        (IssueClock.uniform (1000 * Second)) sampleStore
        (Context.request (goBytes "Digest t")) =
      .returned ((Context.request (goBytes "Digest t")).JSON
        { code := 200, message := "令牌刷新成功", token := some (tok, e), user := none,
          errors := none }) := by
  have hd : decodeOf [(goBytes "t", sampleToken lib "user")]
      (List.drop bearerPrefix.length (Context.request (goBytes "Digest t")).Authorization) =
      sampleToken lib "user" := by
    have h1 : List.drop bearerPrefix.length
        (Context.request (goBytes "Digest t")).Authorization = goBytes "t" := by decide
    rw [h1]
    simp [decodeOf]
  have h1 : (Context.request (goBytes "Digest t")).Authorization ≠ [] := by decide
  have h2 : ¬ (Context.request (goBytes "Digest t")).Authorization.length ≤
      bearerPrefix.length := by decide
  have hpre : bearerPrefix.isPrefixOf (Context.request (goBytes "Digest t")).Authorization =
      false := by decide
  have hm : GetSigningMethod "HS256" = some .HS256 := by decide
  have hparse : ParseJWTWithoutValidation (sampleToken lib "user") =
      .ok (accessClaims (loadConfig (envOf [])) (IssueClock.uniform (1000 * Second)) 2 "bob"
        "user") := by
    simp [ParseJWTWithoutValidation, sampleToken, signedWith, ParseUnverified, hm]
  have huser : GetUserByID sampleStore 2 = .ok (sampleUser 2 "bob" "user" "active").toUserInfo :=
    by rfl
  have hact : (sampleUser 2 "bob" "user" "active").toUserInfo.IsActive = true := by decide
  refine ⟨by decide, by decide, ?_, ?_, ?_⟩
  · simp [JWTAuthentication, h1, hpre]
  · have hu : GetUserByID sampleStore
        (accessClaims (loadConfig (envOf [])) (IssueClock.uniform (1000 * Second)) 2 "bob"
          "user").UserID = .ok (sampleUser 2 "bob" "user" "active").toUserInfo := huser
    simp only [Controllers.ValidateToken, List.isEmpty_iff, h1, h2, hd, sampleToken_valid, hu,
      hact, if_false, Bool.not_true]
    rfl
  · have hu : GetUserByID sampleStore
        (accessClaims (loadConfig (envOf [])) (IssueClock.uniform (1000 * Second)) 2 "bob"
          "user").UserID = .ok (sampleUser 2 "bob" "user" "active").toUserInfo := huser
    have hres : RefreshToken lib (loadConfig (envOf []))
        (decodeOf [(goBytes "t", sampleToken lib "user")])
        (IssueClock.uniform (1000 * Second)) sampleStore
        (Context.request (goBytes "Digest t")) =
        .returned ((Context.request (goBytes "Digest t")).JSON
          { code := 200, message := "令牌刷新成功",
            token := some (.compact
              (lib.signingString "HS256" (accessClaims (loadConfig (envOf []))
                (IssueClock.uniform (1000 * Second)) 2 "bob" "user"))
              (some "HS256") (accessClaims (loadConfig (envOf []))
                (IssueClock.uniform (1000 * Second)) 2 "bob" "user")
              (some (hmacSum lib.sha256 64 (goBytes (loadConfig (envOf [])).JWT.Secret)
                (goBytes (lib.signingString "HS256" (accessClaims (loadConfig (envOf []))
                  (IssueClock.uniform (1000 * Second)) 2 "bob" "user"))))),
              Add (IssueClock.uniform (1000 * Second)).expiry
                (secondsDuration (loadConfig (envOf [])).JWT.ExpirationTime)),
            user := none, errors := none }) := by
      simp only [RefreshToken, List.isEmpty_iff, h1, h2, hd, hparse, hu, hact, if_false,
        Bool.not_true, generateJWT_eq]
      rfl
    exact ⟨_, _, hres⟩

end GoIris
